import Mathlib

/-!
Verification development for the real-time control plane of ml-assets-core:
the ops flag repository (`src/infrastructure/messaging/redis_backend.py`,
`ops_flags.py`), the ops command service (`src/application/usecases/ops.py`)
and the inference worker (`src/interfaces/workers/inference_worker.py`).

Modelling conventions:
* Python floats are modelled as rationals (`ℚ`); `float(str)` is modelled as a
  parser of finite decimal literals (`inf`/`nan` literals are outside the
  model), and `f"{x:.Nf}"` as exact decimal rounding half to even.
  Rational arithmetic is implemented through `Rat.divInt` on numerators and
  denominators so that every definition evaluates inside the kernel.
* The Redis hash holding the ops flags is an association list
  `List (String × String)` (the production client is used with decoded
  string responses, as in the repository's tests); `hset(mapping=...)`
  updates keys in place and appends new ones.
* `json.dumps` / `json.loads` are modelled at the string level by
  `jdump` / `jparse` over the inductive `JVal`, following CPython's `json`
  module with its default options (separators `", "`/`": "`,
  `ensure_ascii=True`, last key wins in objects).
* Side effects (audit logging, publishing, notification, invoking the
  inference collaborator) are recorded as explicit effect lists.
-/

/-- Kernel-evaluable rational addition (equal to `a + b`). -/
def qAdd (a b : ℚ) : ℚ := Rat.divInt (a.num * b.den + b.num * a.den) ((a.den : Int) * (b.den : Int))

/-- Kernel-evaluable rational subtraction (equal to `a - b`). -/
def qSub (a b : ℚ) : ℚ := Rat.divInt (a.num * b.den - b.num * a.den) ((a.den : Int) * (b.den : Int))

/-- Kernel-evaluable rational multiplication (equal to `a * b`). -/
def qMul (a b : ℚ) : ℚ := Rat.divInt (a.num * b.num) ((a.den : Int) * (b.den : Int))

/-- Kernel-evaluable rational negation. -/
def qNeg (a : ℚ) : ℚ := Rat.divInt (-a.num) (a.den : Int)

/-- `a / 10^k` for a natural `k`, kernel-evaluable. -/
def qDivPow10 (a : ℚ) (k : Nat) : ℚ := Rat.divInt a.num ((a.den : Int) * (10 : Int) ^ k)

/-- `a * 10^k` for a natural `k`, kernel-evaluable. -/
def qMulPow10 (a : ℚ) (k : Nat) : ℚ := Rat.divInt (a.num * (10 : Int) ^ k) (a.den : Int)

/-- `a * 10^e` for an integer `e`, kernel-evaluable. -/
def qScale10 (a : ℚ) (e : Int) : ℚ :=
  if 0 ≤ e then qMulPow10 a e.toNat else qDivPow10 a (-e).toNat

theorem qAdd_eq (a b : ℚ) : qAdd a b = a + b := by
  unfold qAdd
  rw [Rat.divInt_eq_div]
  have ha : ((a.den : ℚ)) ≠ 0 := Nat.cast_ne_zero.mpr a.den_nz
  have hb : ((b.den : ℚ)) ≠ 0 := Nat.cast_ne_zero.mpr b.den_nz
  conv_rhs => rw [← Rat.num_div_den a, ← Rat.num_div_den b]
  push_cast
  field_simp

theorem qSub_eq (a b : ℚ) : qSub a b = a - b := by
  unfold qSub
  rw [Rat.divInt_eq_div]
  have ha : ((a.den : ℚ)) ≠ 0 := Nat.cast_ne_zero.mpr a.den_nz
  have hb : ((b.den : ℚ)) ≠ 0 := Nat.cast_ne_zero.mpr b.den_nz
  conv_rhs => rw [← Rat.num_div_den a, ← Rat.num_div_den b]
  push_cast
  field_simp
  ring

theorem qMul_eq (a b : ℚ) : qMul a b = a * b := by
  unfold qMul
  rw [Rat.divInt_eq_div]
  have ha : ((a.den : ℚ)) ≠ 0 := Nat.cast_ne_zero.mpr a.den_nz
  have hb : ((b.den : ℚ)) ≠ 0 := Nat.cast_ne_zero.mpr b.den_nz
  conv_rhs => rw [← Rat.num_div_den a, ← Rat.num_div_den b]
  push_cast
  field_simp

/-- Characters stripped by Python's `str.strip()` (ASCII whitespace). -/
def pyIsSpace (c : Char) : Bool :=
  c = ' ' || c = '\t' || c = '\n' || c = '\r' || c = '\x0b' || c = '\x0c'

/-- Python `str.strip()`. -/
def pyStrip (s : String) : String :=
  ⟨((s.data.dropWhile pyIsSpace).reverse.dropWhile pyIsSpace).reverse⟩

/-- Python `str.split(",")` (structural recursion, kernel-evaluable). -/
def splitCommaAux : List Char → List Char → List String
  | [], acc => [⟨acc.reverse⟩]
  | c :: rest, acc =>
      if c = ',' then ⟨acc.reverse⟩ :: splitCommaAux rest []
      else splitCommaAux rest (c :: acc)

/-- Python `str.split(",")`. -/
def splitComma (s : String) : List String := splitCommaAux s.data []

/-- `_split_csv` from `application/usecases/ops.py`: split on commas, strip
each entry, keep the non-empty ones. -/
def splitCsv (csvValues : String) : List String :=
  ((splitComma csvValues).map pyStrip).filter (fun v => v ≠ "")

/-- Lexicographic code-point comparison of character lists (Python string
`<=`), structural recursion so that it evaluates inside the kernel. -/
def charListLe : List Char → List Char → Bool
  | [], _ => true
  | _ :: _, [] => false
  | a :: as, b :: bs => if a < b then true else if b < a then false else charListLe as bs

/-- Insert a string into an ascending list (code-point order). -/
def insertSorted (x : String) : List String → List String
  | [] => [x]
  | y :: t => if charListLe x.data y.data then x :: y :: t else y :: insertSorted x t

/-- Ascending insertion sort on strings. -/
def sortStrings (l : List String) : List String := l.foldr insertSorted []

/-- Python `sorted(set(xs))` for strings (code-point order). -/
def pySortedSet (l : List String) : List String := sortStrings l.eraseDups

/-- Lookup in an insertion-ordered dictionary (first occurrence). -/
def alookup {α : Type} (m : List (String × α)) (k : String) : Option α :=
  (m.find? (fun p => p.1 = k)).map (fun p => p.2)

/-- One-key Python `dict` update: replace the value in place if the key is
present, otherwise append. -/
def dictUpd1 {α : Type} (base : List (String × α)) (kv : String × α) :
    List (String × α) :=
  if base.any (fun p => p.1 = kv.1) then
    base.map (fun p => if p.1 = kv.1 then (p.1, kv.2) else p)
  else
    base ++ [kv]

/-- Python `dict.update` / `{**a, **b}` merge semantics. -/
def dictUpd {α : Type} (base upd : List (String × α)) : List (String × α) :=
  upd.foldl dictUpd1 base

/-- Python `dict(pairs)`: first occurrence fixes the position, last
occurrence fixes the value. -/
def dictOfPairs {α : Type} (l : List (String × α)) : List (String × α) :=
  dictUpd [] l

/-- Decimal digits to a natural number. -/
def digitsToNat (ds : List Char) : Nat :=
  ds.foldl (fun a c => a * 10 + (c.toNat - 48)) 0

/-- Mantissa of a decimal literal: `digits`, `digits.digits`, `digits.`,
or `.digits`; returns the value and the unconsumed input. -/
def parseDecMantissa (cs : List Char) : Option (ℚ × List Char) :=
  let intDigits := cs.takeWhile Char.isDigit
  let rest1 := cs.dropWhile Char.isDigit
  match rest1 with
  | '.' :: rest2 =>
      let fracDigits := rest2.takeWhile Char.isDigit
      let rest3 := rest2.dropWhile Char.isDigit
      if intDigits.isEmpty && fracDigits.isEmpty then none
      else
        some (qAdd (digitsToNat intDigits : ℚ)
          (qDivPow10 (digitsToNat fracDigits : ℚ) fracDigits.length), rest3)
  | _ => if intDigits.isEmpty then none else some ((digitsToNat intDigits : ℚ), rest1)

/-- Optional exponent suffix `e[±]digits`. -/
def parseDecExponent (cs : List Char) : Option (Int × List Char) :=
  match cs with
  | 'e' :: rest | 'E' :: rest =>
      let (sgn, rest2) : Int × List Char :=
        match rest with
        | '+' :: r => (1, r)
        | '-' :: r => (-1, r)
        | r => (1, r)
      let ds := rest2.takeWhile Char.isDigit
      if ds.isEmpty then none
      else some (sgn * (digitsToNat ds : Int), rest2.dropWhile Char.isDigit)
  | _ => some (0, cs)

/-- Model of Python `float(s)` restricted to finite decimal literals:
optional surrounding whitespace, optional sign, mantissa, optional
exponent.  CPython additionally accepts `nan`, `inf`/`infinity` and
underscored digit groups (`"1_000"`), none of which are representable
here (`ℚ` has no NaN/infinities), so those strings map to `none`: a
`none` result of this model therefore does not imply that `float()`
raises, and properties about the program rejecting a string must not be
read off this model for those inputs. -/
def parsePyFloat (s : String) : Option ℚ :=
  let cs := (pyStrip s).data
  let (neg, cs1) : Bool × List Char :=
    match cs with
    | '+' :: r => (false, r)
    | '-' :: r => (true, r)
    | r => (false, r)
  match parseDecMantissa cs1 with
  | none => none
  | some (m, rest) =>
      match parseDecExponent rest with
      | none => none
      | some (e, rest2) =>
          if rest2.isEmpty then
            some (if neg then qNeg (qScale10 m e) else qScale10 m e)
          else none

/-- Round a rational to an integer, ties to even. -/
def roundHalfEven (q : ℚ) : Int :=
  let f : Int := q.floor
  let r : ℚ := qSub q (f : ℚ)
  if r < Rat.divInt 1 2 then f
  else if Rat.divInt 1 2 < r then f + 1
  else if f % 2 = 0 then f else f + 1

/-- Left-pad a string with zeros to the given width. -/
def padZeros (width : Nat) (s : String) : String :=
  ⟨List.replicate (width - s.length) '0'⟩ ++ s

/-- Model of Python fixed-point formatting `f"{q:.ndf}"` with `nd`
fractional digits, rounding half to even. -/
def formatFixed (nd : Nat) (q : ℚ) : String :=
  let scaled := roundHalfEven (qMulPow10 q nd)
  let sgn := if q < 0 then "-" else ""
  let m := scaled.natAbs
  let intPart := Nat.repr (m / 10 ^ nd)
  if nd = 0 then sgn ++ intPart
  else sgn ++ intPart ++ "." ++ padZeros nd (Nat.repr (m % 10 ^ nd))

example : formatFixed 6 1 = "1.000000" := by decide
example : formatFixed 6 (Rat.divInt 4 5) = "0.800000" := by decide
example : formatFixed 2 (Rat.divInt 25 2) = "12.50" := by decide
example : parsePyFloat "1.000000" = some 1 := by decide
example : parsePyFloat "-1" = some (-1) := by decide
example : parsePyFloat "abc" = none := by decide
example : parsePyFloat " 2.5e1 " = some 25 := by decide
example : parsePyFloat "inf" = none := by decide
example : splitCsv "EURUSD, USDJPY" = ["EURUSD", "USDJPY"] := by decide
example : pySortedSet ["USDJPY", "EURUSD", "USDJPY"] = ["EURUSD", "USDJPY"] := by
  decide

/-- JSON values as produced by `json.loads`: Python keeps integer and float
numbers apart, objects are insertion-ordered dictionaries. -/
inductive JVal : Type where
  | jnull : JVal
  | jbool : Bool → JVal
  | jint : Int → JVal
  | jnum : ℚ → JVal
  | jstr : String → JVal
  | jarr : List JVal → JVal
  | jobj : List (String × JVal) → JVal

mutual

/-- Structural Boolean equality on JSON values. -/
def jbeq : JVal → JVal → Bool
  | .jnull, .jnull => true
  | .jbool a, .jbool b => a = b
  | .jint a, .jint b => a = b
  | .jnum a, .jnum b => a = b
  | .jstr a, .jstr b => a = b
  | .jarr a, .jarr b => jbeqList a b
  | .jobj a, .jobj b => jbeqEntries a b
  | _, _ => false

/-- Boolean equality on lists of JSON values. -/
def jbeqList : List JVal → List JVal → Bool
  | [], [] => true
  | x :: xs, y :: ys => jbeq x y && jbeqList xs ys
  | _, _ => false

/-- Boolean equality on lists of object entries. -/
def jbeqEntries : List (String × JVal) → List (String × JVal) → Bool
  | [], [] => true
  | (k, v) :: xs, (k', v') :: ys => k = k' && jbeq v v' && jbeqEntries xs ys
  | _, _ => false

end

mutual

theorem jbeq_iff : ∀ a b : JVal, jbeq a b = true ↔ a = b
  | a, b => by
    cases a <;> cases b <;> simp [jbeq]
    case jarr.jarr xs ys => exact jbeqList_iff xs ys
    case jobj.jobj xs ys => exact jbeqEntries_iff xs ys

theorem jbeqList_iff : ∀ xs ys : List JVal, jbeqList xs ys = true ↔ xs = ys
  | [], ys => by cases ys <;> simp [jbeqList]
  | x :: xs, [] => by simp [jbeqList]
  | x :: xs, y :: ys => by
      simp [jbeqList, jbeq_iff x y, jbeqList_iff xs ys]

theorem jbeqEntries_iff :
    ∀ xs ys : List (String × JVal), jbeqEntries xs ys = true ↔ xs = ys
  | [], ys => by cases ys <;> simp [jbeqEntries]
  | x :: xs, [] => by simp [jbeqEntries]
  | (k, v) :: xs, (k', v') :: ys => by
      simp [jbeqEntries, jbeq_iff v v', jbeqEntries_iff xs ys, Prod.ext_iff, and_assoc]

end

instance : DecidableEq JVal := fun a b => decidable_of_iff _ (jbeq_iff a b)

/-- Lower-case hexadecimal digit. -/
def hexDigit (n : Nat) : Char :=
  if n < 10 then Char.ofNat (48 + n) else Char.ofNat (87 + n)

/-- The four hex digits of a code unit below `0x10000`. -/
def hexDigits4 (n : Nat) : List Char :=
  [hexDigit (n / 4096 % 16), hexDigit (n / 256 % 16),
   hexDigit (n / 16 % 16), hexDigit (n % 16)]

/-- A `\uXXXX` escape for a code unit below `0x10000`. -/
def uEsc4 (n : Nat) : List Char := '\\' :: 'u' :: hexDigits4 n

/-- CPython `json` escaping of one character with `ensure_ascii=True`:
the two-character escapes of `ESCAPE_DCT`, `\uXXXX` for other characters
outside `0x20..0x7e`, surrogate pairs above `0xffff`. -/
def escChar (c : Char) : List Char :=
  if c = '"' then ['\\', '"']
  else if c = '\\' then ['\\', '\\']
  else if c = '\x08' then ['\\', 'b']
  else if c = '\x0c' then ['\\', 'f']
  else if c = '\n' then ['\\', 'n']
  else if c = '\r' then ['\\', 'r']
  else if c = '\t' then ['\\', 't']
  else if c.toNat < 0x20 || 0x7e < c.toNat then
    if c.toNat < 0x10000 then uEsc4 c.toNat
    else
      uEsc4 (0xd800 + (c.toNat - 0x10000) / 0x400) ++
        uEsc4 (0xdc00 + (c.toNat - 0x10000) % 0x400)
  else [c]

/-- Escaped body of a JSON string literal. -/
def escBody (l : List Char) : List Char := (l.map escChar).flatten

/-- A JSON string literal, quotes included. -/
def escString (s : String) : List Char := '"' :: escBody s.data ++ ['"']

/-- Digit characters of an integer (Python `repr` of `int`). -/
def intChars (n : Int) : List Char :=
  if n < 0 then '-' :: (Nat.repr n.natAbs).data else (Nat.repr n.natAbs).data

/-- Smallest number of decimal places that writes `q` exactly, when one
exists below 400 (it does for every value parsed from a decimal literal). -/
def decExp (q : ℚ) : Option Nat :=
  (List.range 400).find? (fun d => (qMulPow10 q d).den = 1)

/-- Decimal rendering of a float value (Python `repr` of a float whose
value is a decimal fraction: integral values get a trailing `.0`). -/
def floatChars (q : ℚ) : List Char :=
  match decExp q with
  | some 0 => intChars q.num ++ ['.', '0']
  | some (d + 1) =>
      let scaled := qMulPow10 q (d + 1)
      let sgn : List Char := if q < 0 then ['-'] else []
      let m := scaled.num.natAbs
      sgn ++ (Nat.repr (m / 10 ^ (d + 1))).data ++ '.' ::
        (padZeros (d + 1) (Nat.repr (m % 10 ^ (d + 1)))).data
  | none => intChars q.num ++ '/' :: intChars (q.den : Int)

mutual

/-- `json.dumps` with its default options, as a character list:
separators `", "` and `": "`, `ensure_ascii=True`. -/
def jdumpChars : JVal → List Char
  | .jnull => ['n', 'u', 'l', 'l']
  | .jbool true => ['t', 'r', 'u', 'e']
  | .jbool false => ['f', 'a', 'l', 's', 'e']
  | .jint n => intChars n
  | .jnum q => floatChars q
  | .jstr s => escString s
  | .jarr xs => '[' :: jdumpItems xs ++ [']']
  | .jobj kvs => '\x7b' :: jdumpEntries kvs ++ ['\x7d']

/-- Array items, separated by `", "`. -/
def jdumpItems : List JVal → List Char
  | [] => []
  | [x] => jdumpChars x
  | x :: y :: t => jdumpChars x ++ ',' :: ' ' :: jdumpItems (y :: t)

/-- Object entries, `"key": value` separated by `", "`. -/
def jdumpEntries : List (String × JVal) → List Char
  | [] => []
  | [(k, v)] => escString k ++ ':' :: ' ' :: jdumpChars v
  | (k, v) :: e :: t =>
      escString k ++ ':' :: ' ' :: jdumpChars v ++ ',' :: ' ' :: jdumpEntries (e :: t)

end

/-- `json.dumps` with its default options. -/
def jdump (v : JVal) : String := ⟨jdumpChars v⟩

/-- JSON whitespace skipping (space, tab, newline, carriage return). -/
def skipWs : List Char → List Char
  | [] => []
  | c :: rest =>
      if c = ' ' || c = '\t' || c = '\n' || c = '\r' then skipWs rest else c :: rest

/-- Numeric value of a hexadecimal digit. -/
def hexVal (c : Char) : Option Nat :=
  if '0' ≤ c && c ≤ '9' then some (c.toNat - 48)
  else if 'a' ≤ c && c ≤ 'f' then some (c.toNat - 87)
  else if 'A' ≤ c && c ≤ 'F' then some (c.toNat - 55)
  else none

/-- Value of the short escapes accepted by CPython's `json` scanner. -/
def unescSimple (e : Char) : Option Char :=
  if e = '"' then some '"'
  else if e = '\\' then some '\\'
  else if e = '/' then some '/'
  else if e = 'b' then some '\x08'
  else if e = 'f' then some '\x0c'
  else if e = 'n' then some '\n'
  else if e = 'r' then some '\r'
  else if e = 't' then some '\t'
  else none

/-- Combine four hex digits. -/
def hex4 (a b c d : Char) : Option Nat :=
  match hexVal a, hexVal b, hexVal c, hexVal d with
  | some x, some y, some z, some w => some (4096 * x + 256 * y + 16 * z + w)
  | _, _, _, _ => none

/-- Four hex digits. -/
def parseHexQuad : List Char → Option (Nat × List Char)
  | a :: b :: c :: d :: rest => (hex4 a b c d).map (fun n => (n, rest))
  | _ => none

/-- The `\uXXXX` continuation after a high surrogate, combining the pair
exactly as CPython's scanner does.  A lone surrogate escape, which CPython
would keep as a lone-surrogate `str` element, has no counterpart in Lean's
`Char` and is rejected. -/
def parseLowSurrogate (hiv : Nat) : List Char → Option (Char × List Char)
  | e1 :: e2 :: r4 =>
      if e1 = '\\' && e2 = 'u' then
        (parseHexQuad r4).bind (fun p =>
          if 0xdc00 ≤ p.1 && p.1 ≤ 0xdfff then
            some (Char.ofNat (0x10000 + (hiv - 0xd800) * 0x400 + (p.1 - 0xdc00)), p.2)
          else none)
      else none
  | _ => none

/-- A full `\uXXXX` escape body: low surrogates are only accepted right
after a high surrogate. -/
def parseUEsc (cs : List Char) : Option (Char × List Char) :=
  (parseHexQuad cs).bind (fun p =>
    if 0xd800 ≤ p.1 && p.1 ≤ 0xdbff then parseLowSurrogate p.1 p.2
    else if 0xdc00 ≤ p.1 && p.1 ≤ 0xdfff then none
    else some (Char.ofNat p.1, p.2))

/-- One escape sequence after the backslash. -/
def parseEsc : List Char → Option (Char × List Char)
  | [] => none
  | e :: r2 =>
      if e = 'u' then parseUEsc r2
      else (unescSimple e).map (fun u => (u, r2))

/-- Body of a JSON string literal after the opening quote (strict mode:
raw control characters are rejected); returns the decoded characters and
the input after the closing quote.  Fuelled so that every sub-parser is a
small total function; any fuel above the input length suffices. -/
def parseJStringBody : Nat → List Char → Option (List Char × List Char)
  | 0, _ => none
  | fuel + 1, cs =>
      match cs with
      | [] => none
      | c :: rest =>
          if c = '"' then some ([], rest)
          else if c = '\\' then
            (parseEsc rest).bind (fun q =>
              (parseJStringBody fuel q.2).map (fun p => (q.1 :: p.1, p.2)))
          else if c.toNat < 0x20 then none
          else (parseJStringBody fuel rest).map (fun p => (c :: p.1, p.2))

/-- JSON number grammar `-?(0|[1-9]\d*)(\.\d+)?([eE][-+]?\d+)?`; consumes
the longest match exactly as CPython's `NUMBER_RE`, yielding an integer
when neither fraction nor exponent is present and a float otherwise. -/
def parseJNumber (cs : List Char) : Option (JVal × List Char) :=
  let (neg, cs1) : Bool × List Char :=
    match cs with
    | '-' :: r => (true, r)
    | r => (false, r)
  let intRes : Option (List Char × List Char) :=
    match cs1 with
    | '0' :: r => some (['0'], r)
    | c :: r =>
        if c.isDigit then some (c :: r.takeWhile Char.isDigit, r.dropWhile Char.isDigit)
        else none
    | [] => none
  match intRes with
  | none => none
  | some (intDigits, rest1) =>
      let fracRes : Option (List Char × List Char) :=
        match rest1 with
        | '.' :: r =>
            let ds := r.takeWhile Char.isDigit
            if ds.isEmpty then none else some (ds, r.dropWhile Char.isDigit)
        | _ => none
      let (fracDigits, rest2) := match fracRes with
        | some (ds, r) => (ds, r)
        | none => ([], rest1)
      let expRes : Option (Int × List Char) :=
        match rest2 with
        | 'e' :: r | 'E' :: r =>
            let (sgn, r2) : Int × List Char :=
              match r with
              | '+' :: rr => (1, rr)
              | '-' :: rr => (-1, rr)
              | rr => (1, rr)
            let ds := r2.takeWhile Char.isDigit
            if ds.isEmpty then none else some (sgn * (digitsToNat ds : Int), r2.dropWhile Char.isDigit)
        | _ => none
      let (hasExp, e, rest3) : Bool × Int × List Char := match expRes with
        | some (e, r) => (true, e, r)
        | none => (false, 0, rest2)
      if fracRes.isNone && !hasExp then
        let n : Int := (digitsToNat intDigits : Int)
        some (.jint (if neg then -n else n), rest1)
      else
        let mant := qAdd (digitsToNat intDigits : ℚ)
          (qDivPow10 (digitsToNat fracDigits : ℚ) fracDigits.length)
        let v := qScale10 mant e
        some (.jnum (if neg then qNeg v else v), rest3)

mutual

/-- Fueled JSON value parser (CPython `json.loads` grammar).  Fuel only
decreases when entering containers, so any fuel above the nesting size of
the input suffices; `jparse` supplies `length + 1`. -/
def parseJVal : Nat → List Char → Option (JVal × List Char)
  | 0, _ => none
  | fuel + 1, cs =>
      match cs with
      | [] => none
      | c :: rest =>
          if c = '\x7b' then
            match skipWs rest with
            | '\x7d' :: r2 => some (.jobj [], r2)
            | r2 => parseJObjEntry fuel r2
          else if c = '[' then
            match skipWs rest with
            | ']' :: r2 => some (.jarr [], r2)
            | r2 =>
                (parseJVal fuel r2).bind (fun p =>
                  (parseJArrRest fuel (skipWs p.2)).map (fun q =>
                    (.jarr (p.1 :: q.1), q.2)))
          else if c = '"' then
            (parseJStringBody (rest.length + 1) rest).map (fun p => (.jstr ⟨p.1⟩, p.2))
          else if c = 't' then
            match rest with
            | 'r' :: 'u' :: 'e' :: r2 => some (.jbool true, r2)
            | _ => none
          else if c = 'f' then
            match rest with
            | 'a' :: 'l' :: 's' :: 'e' :: r2 => some (.jbool false, r2)
            | _ => none
          else if c = 'n' then
            match rest with
            | 'u' :: 'l' :: 'l' :: r2 => some (.jnull, r2)
            | _ => none
          else parseJNumber cs

/-- After one array element: `, value ...` or `]`. -/
def parseJArrRest : Nat → List Char → Option (List JVal × List Char)
  | 0, _ => none
  | fuel + 1, cs =>
      match cs with
      | ']' :: rest => some ([], rest)
      | ',' :: rest =>
          (parseJVal fuel (skipWs rest)).bind (fun p =>
            (parseJArrRest fuel (skipWs p.2)).map (fun q => (p.1 :: q.1, q.2)))
      | _ => none

/-- After an object key: `: value` followed by the rest of the object. -/
def parseObjColon : Nat → List Char → Option (JVal × (List (String × JVal) × List Char))
  | 0, _ => none
  | fuel + 1, cs =>
      match skipWs cs with
      | ':' :: r3 =>
          (parseJVal fuel (skipWs r3)).bind (fun vp =>
            (parseJObjRest fuel (skipWs vp.2)).map (fun q => (vp.1, q)))
      | _ => none

/-- One `"key": value` object entry followed by the rest of the object. -/
def parseJObjEntry : Nat → List Char → Option (JVal × List Char)
  | 0, _ => none
  | fuel + 1, cs =>
      match cs with
      | '"' :: rest =>
          (parseJStringBody (rest.length + 1) rest).bind (fun kp =>
            (parseObjColon fuel kp.2).map (fun t =>
              (.jobj (dictOfPairs ((⟨kp.1⟩, t.1) :: t.2.1)), t.2.2)))
      | _ => none

/-- After one object entry: `, "key": value ...` or the closing brace. -/
def parseJObjRest : Nat → List Char → Option (List (String × JVal) × List Char)
  | 0, _ => none
  | fuel + 1, cs =>
      match cs with
      | '\x7d' :: rest => some ([], rest)
      | ',' :: rest =>
          match skipWs rest with
          | '"' :: r2 =>
              (parseJStringBody (r2.length + 1) r2).bind (fun kp =>
                (parseObjColon fuel kp.2).map (fun t =>
                  ((⟨kp.1⟩, t.1) :: t.2.1, t.2.2)))
          | _ => none
      | _ => none

end

/-- Model of `json.loads`: parse one value surrounded by optional
whitespace; anything else raises `JSONDecodeError`, modelled as `none`. -/
def jparse (s : String) : Option JVal :=
  let cs := skipWs s.data
  match parseJVal (cs.length + 1) cs with
  | none => none
  | some (v, rest) => if (skipWs rest).isEmpty then some v else none

example : jparse "[\"EURUSD\", \"USDJPY\"]" =
    some (.jarr [.jstr "EURUSD", .jstr "USDJPY"]) := by decide
example : jparse "\x7b\"a\": 1, \"b\": [true, null, 2.5]\x7d" =
    some (.jobj [("a", .jint 1), ("b", .jarr [.jbool true, .jnull, .jnum (Rat.divInt 5 2)])]) := by
  decide
example : jparse "\x7b\"a\": 1, \"a\": 2\x7d" = some (.jobj [("a", .jint 2)]) := by decide
example : jparse "not json" = none := by decide
example : jparse "[1," = none := by decide
example : jdump (.jarr [.jstr "EURUSD", .jstr "USDJPY"]) = "[\"EURUSD\", \"USDJPY\"]" := by decide
example : jdump (.jobj [("k", .jstr "v\n\x7b")]) = "\x7b\"k\": \"v\\n\x7b\"\x7d" := by decide
example : jparse (jdump (.jstr ⟨['a', 'é', '漢', Char.ofNat 0x1f600, 'b']⟩)) =
    some (.jstr ⟨['a', 'é', '漢', Char.ofNat 0x1f600, 'b']⟩) := by decide

theorem char_toNat_lt (c : Char) : c.toNat < 0x110000 := by
  have h := c.valid
  have he : c.toNat = c.val.toNat := rfl
  rcases h with h | ⟨h1, h2⟩ <;> rw [he] <;> omega

theorem char_toNat_not_surrogate (c : Char) :
    c.toNat < 0xd800 ∨ 0xdfff < c.toNat := by
  have h := c.valid
  have he : c.toNat = c.val.toNat := rfl
  rcases h with h | ⟨h1, h2⟩
  · left; rw [he]; omega
  · right; rw [he]; omega

theorem hexVal_hexDigit (d : Nat) (h : d < 16) : hexVal (hexDigit d) = some d := by
  interval_cases d <;> rfl

theorem hex4_digits (n : Nat) (h : n < 0x10000) :
    hex4 (hexDigit (n / 4096 % 16)) (hexDigit (n / 256 % 16))
      (hexDigit (n / 16 % 16)) (hexDigit (n % 16)) = some n := by
  unfold hex4
  rw [hexVal_hexDigit _ (Nat.mod_lt _ (by omega)),
      hexVal_hexDigit _ (Nat.mod_lt _ (by omega)),
      hexVal_hexDigit _ (Nat.mod_lt _ (by omega)),
      hexVal_hexDigit _ (Nat.mod_lt _ (by omega))]
  simp only [Option.some.injEq]
  omega


theorem parseHexQuad_hexDigits4 (n : Nat) (h : n < 0x10000) (tail : List Char) :
    parseHexQuad (hexDigits4 n ++ tail) = some (n, tail) := by
  simp [hexDigits4, parseHexQuad, hex4_digits n h]

theorem parseUEsc_bmp (n : Nat) (h : n < 0x10000)
    (hns : n < 0xd800 ∨ 0xdfff < n) (tail : List Char) :
    parseUEsc (hexDigits4 n ++ tail) = some (Char.ofNat n, tail) := by
  have hs1 : (decide (0xd800 ≤ n) && decide (n ≤ 0xdbff)) = false := by
    rcases hns with h' | h' <;> simp <;> omega
  have hs2 : (decide (0xdc00 ≤ n) && decide (n ≤ 0xdfff)) = false := by
    rcases hns with h' | h' <;> simp <;> omega
  rw [parseUEsc, parseHexQuad_hexDigits4 n h, Option.some_bind, hs1,
    if_neg (by simp), hs2, if_neg (by simp)]

theorem parseLowSurrogate_cons (hiv : Nat) (e1 e2 : Char) (r4 : List Char) :
    parseLowSurrogate hiv (e1 :: e2 :: r4) =
      if e1 = '\\' && e2 = 'u' then
        (parseHexQuad r4).bind (fun p =>
          if 0xdc00 ≤ p.1 && p.1 ≤ 0xdfff then
            some (Char.ofNat (0x10000 + (hiv - 0xd800) * 0x400 + (p.1 - 0xdc00)), p.2)
          else none)
      else none := rfl

theorem parseUEsc_pair (n : Nat) (hn : 0x10000 ≤ n) (hv : n < 0x110000)
    (tail : List Char) :
    parseUEsc (hexDigits4 (0xd800 + (n - 0x10000) / 0x400) ++
      ('\\' :: 'u' :: (hexDigits4 (0xdc00 + (n - 0x10000) % 0x400) ++ tail))) =
      some (Char.ofNat n, tail) := by
  have hmod := Nat.mod_lt (n - 0x10000) (show 0 < 0x400 by omega)
  have hhi : 0xd800 + (n - 0x10000) / 0x400 < 0x10000 := by omega
  have hlo : 0xdc00 + (n - 0x10000) % 0x400 < 0x10000 := by omega
  have hs1 : (decide (0xd800 ≤ 0xd800 + (n - 0x10000) / 0x400) &&
      decide (0xd800 + (n - 0x10000) / 0x400 ≤ 0xdbff)) = true := by
    simp
    omega
  have hs2 : (decide (0xdc00 ≤ 0xdc00 + (n - 0x10000) % 0x400) &&
      decide (0xdc00 + (n - 0x10000) % 0x400 ≤ 0xdfff)) = true := by
    simp
    omega
  have hcomb : 0x10000 + (0xd800 + (n - 0x10000) / 0x400 - 0xd800) * 0x400 +
      (0xdc00 + (n - 0x10000) % 0x400 - 0xdc00) = n := by omega
  rw [parseUEsc, parseHexQuad_hexDigits4 _ hhi, Option.some_bind, hs1, if_pos rfl,
    parseLowSurrogate_cons, if_pos (by decide), parseHexQuad_hexDigits4 _ hlo,
    Option.some_bind, hs2, if_pos rfl, hcomb]

theorem parseJStringBody_esc (f : Nat) (rest : List Char) :
    parseJStringBody (f + 1) ('\\' :: rest) =
      (parseEsc rest).bind (fun q =>
        (parseJStringBody f q.2).map (fun p => (q.1 :: p.1, p.2))) := by
  simp [parseJStringBody]

theorem parseEsc_u (r : List Char) : parseEsc ('u' :: r) = parseUEsc r := by
  simp [parseEsc]

/-- Parsing consumes exactly one escaped character and carries on. -/
theorem parse_escChar (c : Char) (tail : List Char) (f : Nat) :
    parseJStringBody (f + 1) (escChar c ++ tail) =
      (parseJStringBody f tail).map (fun p => (c :: p.1, p.2)) := by
  have hvalid := char_toNat_lt c
  have hsur := char_toNat_not_surrogate c
  unfold escChar
  split_ifs with h1 h2 h3 h4 h5 h6 h7 h8 h9
  · subst h1; simp [parseJStringBody, parseEsc, unescSimple]
  · subst h2; simp [parseJStringBody, parseEsc, unescSimple]
  · subst h3; simp [parseJStringBody, parseEsc, unescSimple]
  · subst h4; simp [parseJStringBody, parseEsc, unescSimple]
  · subst h5; simp [parseJStringBody, parseEsc, unescSimple]
  · subst h6; simp [parseJStringBody, parseEsc, unescSimple]
  · subst h7; simp [parseJStringBody, parseEsc, unescSimple]
  · -- `\uXXXX` escape of a character in the basic multilingual plane
    simp only [uEsc4, List.cons_append]
    rw [parseJStringBody_esc, parseEsc_u, parseUEsc_bmp c.toNat h9 hsur,
      Char.ofNat_toNat]
    simp
  · -- surrogate-pair escape of an astral-plane character
    simp only [uEsc4, List.cons_append, List.append_assoc]
    rw [parseJStringBody_esc, parseEsc_u,
      parseUEsc_pair c.toNat (by omega) hvalid, Char.ofNat_toNat]
    simp
  · -- plain printable character
    have hge : ¬c.toNat < 0x20 := by
      intro hlt
      exact h8 (by simp [hlt])
    simp [parseJStringBody, h1, h2, hge]

theorem skipWs_cons (c : Char) (t : List Char)
    (h : (c = ' ' || c = '\t' || c = '\n' || c = '\r') = false) :
    skipWs (c :: t) = c :: t := by
  rw [skipWs, h]
  simp

theorem parse_escBody (l : List Char) : ∀ tail (f : Nat), l.length + 1 ≤ f →
    parseJStringBody f (escBody l ++ '"' :: tail) = some (l, tail) := by
  induction l with
  | nil =>
      intro tail f hf
      obtain ⟨g, rfl⟩ : ∃ g, f = g + 1 := ⟨f - 1, by omega⟩
      simp [escBody, parseJStringBody]
  | cons c t ih =>
      intro tail f hf
      obtain ⟨g, rfl⟩ : ∃ g, f = g + 1 := ⟨f - 1, by omega⟩
      have : escBody (c :: t) = escChar c ++ escBody t := by
        simp [escBody]
      rw [this, List.append_assoc, parse_escChar c _ g,
        ih tail g (by simpa using Nat.lt_succ_iff.mp (by simpa using hf))]
      rfl

theorem parseJVal_quote (f : Nat) (rest : List Char) :
    parseJVal (f + 1) ('"' :: rest) =
      (parseJStringBody (rest.length + 1) rest).map (fun p => (.jstr ⟨p.1⟩, p.2)) := rfl

theorem escBody_length (l : List Char) : l.length ≤ (escBody l).length := by
  induction l with
  | nil => simp [escBody]
  | cons c t ih =>
      have : escBody (c :: t) = escChar c ++ escBody t := by simp [escBody]
      rw [this]
      have hc : 1 ≤ (escChar c).length := by
        unfold escChar
        split_ifs <;> simp [uEsc4, hexDigits4]
      simp only [List.length_append, List.length_cons]
      omega

/-- Parsing a dumped string literal. -/
theorem parseJVal_str (s : String) (tail : List Char) (f : Nat) (hf : 1 ≤ f) :
    parseJVal f (escString s ++ tail) = some (.jstr s, tail) := by
  obtain ⟨g, rfl⟩ : ∃ g, f = g + 1 := ⟨f - 1, by omega⟩
  have hshape : escString s ++ tail = '"' :: (escBody s.data ++ '"' :: tail) := by
    simp [escString]
  rw [hshape, parseJVal_quote]
  have hlen : s.data.length + 1 ≤ (escBody s.data ++ '"' :: tail).length + 1 := by
    have := escBody_length s.data
    simp only [List.length_append, List.length_cons]
    omega
  rw [parse_escBody s.data tail ((escBody s.data ++ '"' :: tail).length + 1) hlen]
  rfl

/-- The `", item"*` tail of a dumped array (proof helper). -/
def jitemsTail : List JVal → List Char
  | [] => []
  | v :: t => ',' :: ' ' :: (jdumpChars v ++ jitemsTail t)

theorem jdumpItems_cons (v : JVal) (t : List JVal) :
    jdumpItems (v :: t) = jdumpChars v ++ jitemsTail t := by
  induction t generalizing v with
  | nil => simp [jdumpItems, jitemsTail]
  | cons w t ih => rw [jdumpItems, ih w, jitemsTail]

theorem parseJArrRest_rb (f : Nat) (rest : List Char) :
    parseJArrRest (f + 1) (']' :: rest) = some ([], rest) := rfl

theorem parseJArrRest_comma (f : Nat) (rest : List Char) :
    parseJArrRest (f + 1) (',' :: rest) =
      (parseJVal f (skipWs rest)).bind (fun p =>
        (parseJArrRest f (skipWs p.2)).map (fun q => (p.1 :: q.1, q.2))) := rfl

theorem parseJVal_lbracket (f : Nat) (rest : List Char) :
    parseJVal (f + 1) ('[' :: rest) =
      (match skipWs rest with
       | ']' :: r2 => some (.jarr [], r2)
       | r2 =>
           (parseJVal f r2).bind (fun p =>
             (parseJArrRest f (skipWs p.2)).map (fun q =>
               (.jarr (p.1 :: q.1), q.2)))) := rfl

theorem parseJVal_lbrace (f : Nat) (rest : List Char) :
    parseJVal (f + 1) ('\x7b' :: rest) =
      (match skipWs rest with
       | '\x7d' :: r2 => some (.jobj [], r2)
       | r2 => parseJObjEntry f r2) := rfl

theorem skipWs_space (t : List Char) : skipWs (' ' :: t) = skipWs t := rfl

theorem escString_append (s : String) (y : List Char) :
    escString s ++ y = '"' :: (escBody s.data ++ '"' :: y) := by
  simp [escString]

theorem skipWs_escString (s : String) (y : List Char) :
    skipWs (escString s ++ y) = escString s ++ y := by
  rw [escString_append, skipWs_cons _ _ (by decide)]

theorem parseJVal_lbracket_quote (f : Nat) (z : List Char) :
    parseJVal (f + 1) ('[' :: '"' :: z) =
      (parseJVal f ('"' :: z)).bind (fun p =>
        (parseJArrRest f (skipWs p.2)).map (fun q =>
          (.jarr (p.1 :: q.1), q.2))) := rfl

theorem skipWs_itemsTail (l : List JVal) (tail : List Char) :
    skipWs (jitemsTail l ++ ']' :: tail) = jitemsTail l ++ ']' :: tail := by
  cases l with
  | nil => exact skipWs_cons _ _ (by decide)
  | cons v t => exact skipWs_cons _ _ (by decide)

/-- Parsing the dumped tail of an array of strings. -/
theorem parse_arrTail (l : List String) : ∀ tail (f : Nat), l.length + 1 ≤ f →
    parseJArrRest f (jitemsTail (l.map .jstr) ++ ']' :: tail) =
      some (l.map .jstr, tail) := by
  induction l with
  | nil =>
      intro tail f hf
      obtain ⟨g, rfl⟩ : ∃ g, f = g + 1 := ⟨f - 1, by omega⟩
      show parseJArrRest (g + 1) (jitemsTail [] ++ ']' :: tail) = some ([], tail)
      rw [show jitemsTail [] = ([] : List Char) from rfl, List.nil_append,
        parseJArrRest_rb]
  | cons s t ih =>
      intro tail f hf
      obtain ⟨g, rfl⟩ : ∃ g, f = g + 1 := ⟨f - 1, by omega⟩
      have hshape : jitemsTail ((s :: t).map .jstr) ++ ']' :: tail =
          ',' :: ' ' :: (escString s ++ (jitemsTail (t.map .jstr) ++ ']' :: tail)) := by
        simp [jitemsTail, jdumpChars]
      have hg : t.length + 1 ≤ g := by
        simp only [List.length_cons] at hf
        omega
      rw [hshape, parseJArrRest_comma, skipWs_space, skipWs_escString,
        parseJVal_str s _ g (by omega), Option.some_bind, skipWs_itemsTail,
        ih tail g hg, Option.map_some']
      rfl

/-- Parsing a dumped array of strings. -/
theorem parseJVal_arrStr (l : List String) (tail : List Char) (f : Nat)
    (hf : l.length + 2 ≤ f) :
    parseJVal f (jdumpChars (.jarr (l.map .jstr)) ++ tail) =
      some (.jarr (l.map .jstr), tail) := by
  obtain ⟨g, rfl⟩ : ∃ g, f = g + 1 := ⟨f - 1, by omega⟩
  cases l with
  | nil =>
      show parseJVal (g + 1) (jdumpChars (.jarr []) ++ tail) = some (.jarr [], tail)
      have hshape : jdumpChars (.jarr []) ++ tail = '[' :: ']' :: tail := by
        simp [jdumpChars, jdumpItems]
      rw [hshape, parseJVal_lbracket]
      rfl
  | cons s t =>
      have hshape : jdumpChars (.jarr ((s :: t).map .jstr)) ++ tail =
          '[' :: '"' :: (escBody s.data ++ '"' ::
            (jitemsTail (t.map .jstr) ++ ']' :: tail)) := by
      -- the dumped form is `[" … " , …]`, re-associated to expose the head
        rw [jdumpChars]
        simp only [List.map_cons, jdumpItems_cons]
        rw [show jdumpChars (JVal.jstr s) = escString s from rfl]
        simp [escString]
      have hg : t.length + 1 ≤ g := by
        simp only [List.length_cons] at hf
        omega
      rw [hshape, parseJVal_lbracket_quote, ← escString_append,
        parseJVal_str s _ g (by omega), Option.some_bind, skipWs_itemsTail,
        parse_arrTail t _ g hg, Option.map_some']
      rfl

theorem jitemsTail_length_str (l : List String) :
    l.length ≤ (jitemsTail (l.map .jstr)).length := by
  induction l with
  | nil => simp [jitemsTail]
  | cons s t ih =>
      simp only [List.map_cons, jitemsTail, List.length_cons, List.length_append]
      omega

theorem jdump_arrStr_length (l : List String) :
    l.length + 1 ≤ (jdumpChars (.jarr (l.map .jstr))).length := by
  cases l with
  | nil => simp [jdumpChars, jdumpItems]
  | cons s t =>
      have h1 := jitemsTail_length_str t
      have h2 : 2 ≤ (escString s).length := by
        simp [escString]
      rw [jdumpChars]
      simp only [List.map_cons, jdumpItems_cons,
        show jdumpChars (JVal.jstr s) = escString s from rfl]
      simp only [List.length_cons, List.length_append]
      omega

/-- `json.loads ∘ json.dumps` is the identity on arrays of strings. -/
theorem jparse_jdump_arrStr (l : List String) :
    jparse (jdump (.jarr (l.map .jstr))) = some (.jarr (l.map .jstr)) := by
  rw [jparse]
  have hdata : (jdump (.jarr (l.map .jstr))).data = jdumpChars (.jarr (l.map .jstr)) := rfl
  have hhead : jdumpChars (.jarr (l.map .jstr)) = '[' :: (jdumpItems (l.map .jstr) ++ [']']) := by
    rw [jdumpChars]
    simp
  have hskip : skipWs (jdumpChars (.jarr (l.map .jstr))) = jdumpChars (.jarr (l.map .jstr)) := by
    rw [hhead, skipWs_cons _ _ (by decide)]
  rw [hdata, hskip]
  have hlen := jdump_arrStr_length l
  have := parseJVal_arrStr l [] ((jdumpChars (.jarr (l.map .jstr))).length + 1) (by omega)
  rw [List.append_nil] at this
  rw [this]
  rfl

/-- The `", "key": value"*` tail of a dumped object (proof helper). -/
def jentriesTail : List (String × JVal) → List Char
  | [] => []
  | (k, v) :: t => ',' :: ' ' :: (escString k ++ ':' :: ' ' :: (jdumpChars v ++ jentriesTail t))

theorem jdumpEntries_cons (k : String) (v : JVal) (t : List (String × JVal)) :
    jdumpEntries ((k, v) :: t) =
      escString k ++ ':' :: ' ' :: (jdumpChars v ++ jentriesTail t) := by
  induction t generalizing k v with
  | nil => simp [jdumpEntries, jentriesTail]
  | cons e t ih =>
      rcases e with ⟨k', v'⟩
      rw [jdumpEntries, ih k' v', jentriesTail]
      simp

theorem parseObjColon_colon (f : Nat) (z : List Char) :
    parseObjColon (f + 1) (':' :: ' ' :: z) =
      (parseJVal f (skipWs z)).bind (fun vp =>
        (parseJObjRest f (skipWs vp.2)).map (fun q => (vp.1, q))) := rfl

theorem parseJObjEntry_quote (f : Nat) (rest : List Char) :
    parseJObjEntry (f + 1) ('"' :: rest) =
      (parseJStringBody (rest.length + 1) rest).bind (fun kp =>
        (parseObjColon f kp.2).map (fun t =>
          (.jobj (dictOfPairs ((⟨kp.1⟩, t.1) :: t.2.1)), t.2.2))) := rfl

theorem parseJObjRest_rb (f : Nat) (rest : List Char) :
    parseJObjRest (f + 1) ('\x7d' :: rest) = some ([], rest) := rfl

theorem parseJObjRest_comma_quote (f : Nat) (w : List Char) :
    parseJObjRest (f + 1) (',' :: ' ' :: '"' :: w) =
      (parseJStringBody (w.length + 1) w).bind (fun kp =>
        (parseObjColon f kp.2).map (fun t =>
          ((⟨kp.1⟩, t.1) :: t.2.1, t.2.2))) := rfl

theorem parseJVal_lbrace_quote (f : Nat) (z : List Char) :
    parseJVal (f + 1) ('\x7b' :: '"' :: z) = parseJObjEntry f ('"' :: z) := rfl

theorem skipWs_entriesTail (l : List (String × JVal)) (tail : List Char) :
    skipWs (jentriesTail l ++ '\x7d' :: tail) = jentriesTail l ++ '\x7d' :: tail := by
  cases l with
  | nil => exact skipWs_cons _ _ (by decide)
  | cons e t =>
      rcases e with ⟨k, v⟩
      exact skipWs_cons _ _ (by decide)

/-- Mapping a pair of strings to a dumped object entry. -/
def strEntry (kv : String × String) : String × JVal := (kv.1, .jstr kv.2)

/-- Parsing one `"key": value` step of a dumped string-valued object:
after the key, the colon step parses the value and the remaining entries. -/
theorem parseObjColon_strVal (v : String) (t : List (String × JVal))
    (tail : List Char) (f : Nat) (hrest : ∀ g, f = g + 1 →
      parseJObjRest g (jentriesTail t ++ '\x7d' :: tail) = some (t, tail))
    (hf : 2 ≤ f) :
    parseObjColon f (':' :: ' ' :: (jdumpChars (.jstr v) ++
      (jentriesTail t ++ '\x7d' :: tail))) = some (.jstr v, t, tail) := by
  obtain ⟨g, rfl⟩ : ∃ g, f = g + 1 := ⟨f - 1, by omega⟩
  rw [parseObjColon_colon,
    show jdumpChars (.jstr v) = escString v from rfl, skipWs_escString,
    parseJVal_str v _ g (by omega), Option.some_bind, skipWs_entriesTail,
    hrest g rfl, Option.map_some']

theorem dictUpd1_notMem {α : Type} (acc : List (String × α)) (kv : String × α)
    (h : ∀ p ∈ acc, p.1 ≠ kv.1) : dictUpd1 acc kv = acc ++ [kv] := by
  unfold dictUpd1
  rw [if_neg]
  simp only [List.any_eq_true, decide_eq_true_eq, not_exists]
  intro p hp
  exact h p hp.1 hp.2

theorem dictUpd_nodup {α : Type} :
    ∀ (l acc : List (String × α)), (((acc ++ l).map Prod.fst).Nodup) →
      dictUpd acc l = acc ++ l := by
  intro l
  induction l with
  | nil => intro acc _; simp [dictUpd]
  | cons kv t ih =>
      intro acc hnd
      rcases kv with ⟨k, v⟩
      have hk : ∀ p ∈ acc, p.1 ≠ k := by
        intro p hp heq
        have hmem1 : k ∈ acc.map Prod.fst := by
          exact List.mem_map.mpr ⟨p, hp, heq⟩
        have hmem2 : k ∈ ((k, v) :: t).map Prod.fst := by simp
        rw [List.map_append, List.nodup_append] at hnd
        exact hnd.2.2 hmem1 hmem2
      have hstep : dictUpd acc ((k, v) :: t) = dictUpd (acc ++ [(k, v)]) t := by
        rw [dictUpd, List.foldl_cons, dictUpd1_notMem acc (k, v) hk]
        rfl
      have hnd' : (((acc ++ [(k, v)]) ++ t).map Prod.fst).Nodup := by
        rw [List.append_assoc]
        simpa using hnd
      rw [hstep, ih (acc ++ [(k, v)]) hnd', List.append_assoc]
      rfl

/-- `dict(pairs)` is the identity on duplicate-free key lists. -/
theorem dictOfPairs_nodup {α : Type} (l : List (String × α))
    (h : (l.map Prod.fst).Nodup) : dictOfPairs l = l := by
  rw [dictOfPairs, dictUpd_nodup l [] (by simpa using h)]
  rfl

/-- Parsing the dumped tail of a string-valued object. -/
theorem parse_objTail (m : List (String × String)) : ∀ tail (f : Nat),
    2 * m.length + 1 ≤ f →
    parseJObjRest f (jentriesTail (m.map strEntry) ++ '\x7d' :: tail) =
      some (m.map strEntry, tail) := by
  induction m with
  | nil =>
      intro tail f hf
      obtain ⟨g, rfl⟩ : ∃ g, f = g + 1 := ⟨f - 1, by omega⟩
      show parseJObjRest (g + 1) (jentriesTail [] ++ '\x7d' :: tail) = some ([], tail)
      rw [show jentriesTail [] = ([] : List Char) from rfl, List.nil_append,
        parseJObjRest_rb]
  | cons kv t ih =>
      intro tail f hf
      rcases kv with ⟨k, v⟩
      obtain ⟨g, rfl⟩ : ∃ g, f = g + 1 := ⟨f - 1, by omega⟩
      have hg : 2 * t.length + 2 ≤ g := by
        simp only [List.length_cons] at hf
        omega
      have hshape : jentriesTail (((k, v) :: t).map strEntry) ++ '\x7d' :: tail =
          ',' :: ' ' :: '"' :: (escBody k.data ++ '"' ::
            (':' :: ' ' :: (jdumpChars (.jstr v) ++
              (jentriesTail (t.map strEntry) ++ '\x7d' :: tail)))) := by
        simp [jentriesTail, strEntry, escString]
      have hklen : k.data.length + 1 ≤ (escBody k.data ++ '"' ::
          (':' :: ' ' :: (jdumpChars (.jstr v) ++
            (jentriesTail (t.map strEntry) ++ '\x7d' :: tail)))).length + 1 := by
        have := escBody_length k.data
        simp only [List.length_append, List.length_cons]
        omega
      rw [hshape, parseJObjRest_comma_quote, parse_escBody k.data _ _ hklen,
        Option.some_bind,
        parseObjColon_strVal v (t.map strEntry) tail g
          (fun g' hg' => ih tail g' (by omega)) (by omega),
        Option.map_some']
      rfl

/-- Parsing a dumped string-valued object. -/
theorem parseJVal_objStr (m : List (String × String)) (tail : List Char) (f : Nat)
    (hf : 2 * m.length + 2 ≤ f) :
    parseJVal f (jdumpChars (.jobj (m.map strEntry)) ++ tail) =
      some (.jobj (dictOfPairs (m.map strEntry)), tail) := by
  obtain ⟨g, rfl⟩ : ∃ g, f = g + 1 := ⟨f - 1, by omega⟩
  cases m with
  | nil =>
      show parseJVal (g + 1) (jdumpChars (.jobj []) ++ tail) =
        some (.jobj (dictOfPairs []), tail)
      have hshape : jdumpChars (.jobj []) ++ tail = '\x7b' :: '\x7d' :: tail := by
        simp [jdumpChars, jdumpEntries]
      rw [hshape, parseJVal_lbrace]
      rfl
  | cons kv t =>
      rcases kv with ⟨k, v⟩
      have hg : 2 * t.length + 3 ≤ g := by
        simp only [List.length_cons] at hf
        omega
      obtain ⟨g1, rfl⟩ : ∃ g1, g = g1 + 1 := ⟨g - 1, by omega⟩
      have hshape : jdumpChars (.jobj (((k, v) :: t).map strEntry)) ++ tail =
          '\x7b' :: '"' :: (escBody k.data ++ '"' ::
            (':' :: ' ' :: (jdumpChars (.jstr v) ++
              (jentriesTail (t.map strEntry) ++ '\x7d' :: tail)))) := by
        conv_lhs => rw [jdumpChars]
        simp only [List.map_cons, jdumpEntries_cons, strEntry, List.cons_append,
          List.append_assoc, List.singleton_append, List.nil_append]
        rw [escString_append]
      have hklen : k.data.length + 1 ≤ (escBody k.data ++ '"' ::
          (':' :: ' ' :: (jdumpChars (.jstr v) ++
            (jentriesTail (t.map strEntry) ++ '\x7d' :: tail)))).length + 1 := by
        have := escBody_length k.data
        simp only [List.length_append, List.length_cons]
        omega
      rw [hshape, parseJVal_lbrace_quote, parseJObjEntry_quote,
        parse_escBody k.data _ _ hklen, Option.some_bind,
        parseObjColon_strVal v (t.map strEntry) tail g1
          (fun g2 hg2 => parse_objTail t tail g2 (by omega)) (by omega),
        Option.map_some']
      rfl

theorem jentriesTail_length_str (m : List (String × String)) :
    2 * m.length ≤ (jentriesTail (m.map strEntry)).length := by
  induction m with
  | nil => simp [jentriesTail]
  | cons kv t ih =>
      rcases kv with ⟨k, v⟩
      simp only [List.map_cons, strEntry, jentriesTail, List.length_cons,
        List.length_append]
      omega

theorem jdump_objStr_length (m : List (String × String)) :
    2 * m.length + 1 ≤ (jdumpChars (.jobj (m.map strEntry))).length := by
  cases m with
  | nil => simp [jdumpChars, jdumpEntries]
  | cons kv t =>
      rcases kv with ⟨k, v⟩
      have h1 := jentriesTail_length_str t
      have h2 : 2 ≤ (escString k).length := by simp [escString]
      have h3 : 2 ≤ (jdumpChars (.jstr v)).length := by
        rw [show jdumpChars (.jstr v) = escString v from rfl]
        simp [escString]
      conv_rhs => rw [jdumpChars]
      simp only [List.map_cons, jdumpEntries_cons, strEntry, List.length_cons,
        List.length_append]
      omega

/-- `json.loads ∘ json.dumps` is the identity on string-valued objects with
distinct keys. -/
theorem jparse_jdump_objStr (m : List (String × String))
    (hnd : (m.map Prod.fst).Nodup) :
    jparse (jdump (.jobj (m.map strEntry))) = some (.jobj (m.map strEntry)) := by
  rw [jparse]
  have hdata : (jdump (.jobj (m.map strEntry))).data = jdumpChars (.jobj (m.map strEntry)) := rfl
  have hhead : jdumpChars (.jobj (m.map strEntry)) =
      '\x7b' :: (jdumpEntries (m.map strEntry) ++ ['\x7d']) := by
    rw [jdumpChars]
    simp
  have hskip : skipWs (jdumpChars (.jobj (m.map strEntry))) =
      jdumpChars (.jobj (m.map strEntry)) := by
    rw [hhead, skipWs_cons _ _ (by decide)]
  rw [hdata, hskip]
  have hlen := jdump_objStr_length m
  have hval := parseJVal_objStr m [] ((jdumpChars (.jobj (m.map strEntry))).length + 1)
    (by omega)
  rw [List.append_nil] at hval
  rw [hval]
  have hkeys : ((m.map strEntry).map Prod.fst).Nodup := by
    simpa [strEntry, Function.comp] using hnd
  rw [dictOfPairs_nodup _ hkeys]
  rfl

/-- Python `repr` of a string (single quotes; backslashes and quotes
escaped — the further escapes Python applies to control characters are
outside the model, which only ever shows `repr` through `str()` of
composite JSON values, a case no claim evaluates). -/
def pyReprStrChars (s : String) : List Char :=
  '\'' :: (s.data.map (fun c =>
    if c = '\\' || c = '\'' then ['\\', c] else [c])).flatten ++ ['\'']

mutual

/-- Python `repr` of a loaded JSON value. -/
def pyRepr : JVal → List Char
  | .jnull => ['N', 'o', 'n', 'e']
  | .jbool true => ['T', 'r', 'u', 'e']
  | .jbool false => ['F', 'a', 'l', 's', 'e']
  | .jint n => intChars n
  | .jnum q => floatChars q
  | .jstr s => pyReprStrChars s
  | .jarr xs => '[' :: pyReprItems xs ++ [']']
  | .jobj kvs => '\x7b' :: pyReprEntries kvs ++ ['\x7d']

/-- `repr` of list items, `", "` separated. -/
def pyReprItems : List JVal → List Char
  | [] => []
  | [x] => pyRepr x
  | x :: y :: t => pyRepr x ++ ',' :: ' ' :: pyReprItems (y :: t)

/-- `repr` of dict entries, `"k: v"` with `", "` separators. -/
def pyReprEntries : List (String × JVal) → List Char
  | [] => []
  | [(k, v)] => pyReprStrChars k ++ ':' :: ' ' :: pyRepr v
  | (k, v) :: e :: t =>
      pyReprStrChars k ++ ':' :: ' ' :: pyRepr v ++ ',' :: ' ' :: pyReprEntries (e :: t)

end

/-- Python `str()` of a loaded JSON value (strings unquoted, scalars as
their literals, containers through `repr`). -/
def pyStr : JVal → String
  | .jnull => "None"
  | .jbool true => "True"
  | .jbool false => "False"
  | .jint n => ⟨intChars n⟩
  | .jnum q => ⟨floatChars q⟩
  | .jstr s => s
  | .jarr xs => ⟨pyRepr (.jarr xs)⟩
  | .jobj kvs => ⟨pyRepr (.jobj kvs)⟩

/-- Python truthiness of a loaded JSON value. -/
def pyTruthy : JVal → Bool
  | .jnull => false
  | .jbool b => b
  | .jint n => n ≠ 0
  | .jnum q => q ≠ 0
  | .jstr s => s ≠ ""
  | .jarr xs => ¬xs.isEmpty
  | .jobj kvs => ¬kvs.isEmpty

/-- Naive datetime with optional UTC offset in minutes (the model of
Python's `datetime`). -/
structure PyDateTime where
  year : Nat
  month : Nat
  day : Nat
  hour : Nat
  minute : Nat
  second : Nat
  microsecond : Nat
  tzMinutes : Option Int
deriving DecidableEq, Repr

/-- Exactly `n` decimal digits. -/
def takeDigits (n : Nat) (cs : List Char) : Option (Nat × List Char) :=
  let ds := cs.take n
  if ds.length = n && ds.all Char.isDigit then some (digitsToNat ds, cs.drop n)
  else none

def isLeapYear (y : Nat) : Bool := y % 4 = 0 && (y % 100 ≠ 0 || y % 400 = 0)

def daysInMonth (y m : Nat) : Nat :=
  if m = 2 then (if isLeapYear y then 29 else 28)
  else if m = 4 || m = 6 || m = 9 || m = 11 then 30
  else 31

/-- `±HH:MM` or `Z` timezone suffix (offset in minutes). -/
def parseTzSuffix : List Char → Option (Option Int × List Char)
  | [] => some (none, [])
  | 'Z' :: rest => some (some 0, rest)
  | c :: rest =>
      if c = '+' || c = '-' then
        match takeDigits 2 rest with
        | none => none
        | some (hh, r1) =>
            match r1 with
            | ':' :: r2 =>
                match takeDigits 2 r2 with
                | none => none
                | some (mm, r3) =>
                    if hh ≤ 23 && mm ≤ 59 then
                      some (some (if c = '-' then -((hh * 60 + mm : Nat) : Int)
                        else ((hh * 60 + mm : Nat) : Int)), r3)
                    else none
            | _ => none
      else none

/-- Fractional-second suffix: `.` followed by one to six digits, scaled to
microseconds. -/
def parseFraction : List Char → Option (Nat × List Char)
  | '.' :: rest =>
      let ds := rest.takeWhile Char.isDigit
      if ds.isEmpty || 6 < ds.length then none
      else some (digitsToNat ds * 10 ^ (6 - ds.length), rest.dropWhile Char.isDigit)
  | rest => some (0, rest)

/-- `HH:MM[:SS[.ffffff]]` time part. -/
def parseTimePart (cs : List Char) : Option (Nat × Nat × Nat × Nat × List Char) :=
  match takeDigits 2 cs with
  | none => none
  | some (hh, r1) =>
      match r1 with
      | ':' :: r2 =>
          match takeDigits 2 r2 with
          | none => none
          | some (mm, r3) =>
              match r3 with
              | ':' :: r4 =>
                  match takeDigits 2 r4 with
                  | none => none
                  | some (ss, r5) =>
                      match parseFraction r5 with
                      | none => none
                      | some (us, r6) => some (hh, mm, ss, us, r6)
              | _ => some (hh, mm, 0, 0, r3)
      | _ => none

/-- Model of `datetime.fromisoformat` on its documented core grammar:
`YYYY-MM-DD[(T| )HH:MM[:SS[.ffffff]][±HH:MM|Z]]`, with calendar and range
validation. -/
def fromIso (s : String) : Option PyDateTime :=
  match takeDigits 4 s.data with
  | none => none
  | some (y, r1) =>
      match r1 with
      | '-' :: r2 =>
          match takeDigits 2 r2 with
          | none => none
          | some (mo, r3) =>
              match r3 with
              | '-' :: r4 =>
                  match takeDigits 2 r4 with
                  | none => none
                  | some (d, r5) =>
                      if ¬(1 ≤ mo && mo ≤ 12 && 1 ≤ d && d ≤ daysInMonth y mo) then none
                      else
                        match r5 with
                        | [] => some ⟨y, mo, d, 0, 0, 0, 0, none⟩
                        | sep :: r6 =>
                            if sep = 'T' || sep = ' ' then
                              match parseTimePart r6 with
                              | none => none
                              | some (hh, mm, ss, us, r7) =>
                                  if ¬(hh ≤ 23 && mm ≤ 59 && ss ≤ 59) then none
                                  else
                                    match parseTzSuffix r7 with
                                    | none => none
                                    | some (tz, r8) =>
                                        if r8.isEmpty then
                                          some ⟨y, mo, d, hh, mm, ss, us, tz⟩
                                        else none
                            else none
              | _ => none
      | _ => none

/-- Model of `datetime.isoformat`. -/
def isoformat (d : PyDateTime) : String :=
  padZeros 4 (Nat.repr d.year) ++ "-" ++ padZeros 2 (Nat.repr d.month) ++ "-" ++
    padZeros 2 (Nat.repr d.day) ++ "T" ++ padZeros 2 (Nat.repr d.hour) ++ ":" ++
    padZeros 2 (Nat.repr d.minute) ++ ":" ++ padZeros 2 (Nat.repr d.second) ++
    (if d.microsecond = 0 then "" else "." ++ padZeros 6 (Nat.repr d.microsecond)) ++
    (match d.tzMinutes with
     | none => ""
     | some off =>
         (if off < 0 then "-" else "+") ++ padZeros 2 (Nat.repr (off.natAbs / 60)) ++
           ":" ++ padZeros 2 (Nat.repr (off.natAbs % 60)))

example : fromIso "2024-01-02T03:04:05+00:00" =
    some ⟨2024, 1, 2, 3, 4, 5, 0, some 0⟩ := by decide
example : fromIso "2024-02-30" = none := by decide
example : fromIso "garbage" = none := by decide
example : isoformat ⟨2024, 1, 2, 3, 4, 5, 0, some 0⟩ = "2024-01-02T03:04:05+00:00" := by
  decide

/-- `domain/models/theta_params.py`: θ thresholds and metadata. -/
structure ThetaParams where
  theta1 : ℚ
  theta2 : ℚ
  updated_at : PyDateTime
  updated_by : String
  source_model_version : Option String
deriving DecidableEq, Repr

/-- `ThetaParams.__post_init__` as a checked constructor: thetas must lie
in `[0, 1]`, `updated_by` must be non-empty and `source_model_version`
must be `None` or non-empty. -/
def mkThetaParams (t1 t2 : ℚ) (ua : PyDateTime) (ub : String)
    (smv : Option String) : Except String ThetaParams :=
  if ¬(0 ≤ t1 ∧ t1 ≤ 1) then .error "theta1 out of range"
  else if ¬(0 ≤ t2 ∧ t2 ≤ 1) then .error "theta2 out of range"
  else if ub = "" then .error "updated_by required"
  else if smv = some "" then .error "source_model_version must be None or non-empty"
  else .ok ⟨t1, t2, ua, ub, smv⟩

/-- `domain/models/signal.py` `TradeSide`. -/
inductive TradeSide : Type where
  | long : TradeSide
  | short : TradeSide
deriving DecidableEq, Repr

/-- `TradeSide.value`. -/
def TradeSide.value : TradeSide → String
  | .long => "long"
  | .short => "short"

/-- `domain/models/signal.py` `SignalLeg` (its `__post_init__` checks are
enforced by the domain layer at construction; the worker only reads the
fields). -/
structure SignalLeg where
  symbol : String
  side : TradeSide
  beta_weight : ℚ
  notional : ℚ
deriving DecidableEq, Repr

/-- `domain/models/signal.py` `Signal`. -/
structure Signal where
  signal_id : String
  timestamp : PyDateTime
  pair_id : String
  legs : List SignalLeg
  return_prob : ℚ
  risk_score : ℚ
  theta1 : ℚ
  theta2 : ℚ
  position_scale : ℚ
  model_version : String
  valid_until : PyDateTime
  metadata : List (String × String)
deriving DecidableEq, Repr

/-- `application/usecases/inference.py` `InferenceRequest`. -/
structure InferenceRequest where
  partition_ids : List String
  theta_params : ThetaParams
  metadata : List (String × String)
deriving DecidableEq, Repr

/-- `application/usecases/inference.py` `InferenceResponse`; diagnostics
values are arbitrary JSON-serialisable objects. -/
structure InferenceResponse where
  signals : List Signal
  diagnostics : List (String × JVal)

/-- `float(str(v))` on a loaded JSON value. -/
def pyFloatOf (v : JVal) : Except String ℚ :=
  match parsePyFloat (pyStr v) with
  | some q => .ok q
  | none => .error "could not convert string to float"

/-- `data[k]` with `KeyError` re-raised as `ValueError`. -/
def getKey (data : List (String × JVal)) (k : String) : Except String JVal :=
  match alookup data k with
  | some v => .ok v
  | none => .error ("theta_params missing key " ++ k)

/-- `_deserialize_theta_params` from `inference_worker.py`. -/
def deserializeThetaParams (data : List (String × JVal)) : Except String ThetaParams := do
  let uaV ← getKey data "updated_at"
  let ua ← match fromIso (pyStr uaV) with
    | some d => Except.ok d
    | none => Except.error "invalid isoformat string"
  let t1V ← getKey data "theta1"
  let t1 ← pyFloatOf t1V
  let t2V ← getKey data "theta2"
  let t2 ← pyFloatOf t2V
  let ubV ← getKey data "updated_by"
  let smv : Option String :=
    match alookup data "source_model_version" with
    | none => none
    | some .jnull => none
    | some v => some (pyStr v)
  mkThetaParams t1 t2 ua (pyStr ubV) smv

/-- Continuation of `_decode_inference_request` after the partition list
is formed: `theta_params` must be a mapping; a falsy `metadata` is
replaced by the empty dict, a truthy non-mapping is rejected. -/
def decodeWithPartitions (kvs : List (String × JVal)) (partitions : List String) :
    Except String InferenceRequest :=
  match alookup kvs "theta_params" with
  | some (.jobj tkvs) =>
      match (if pyTruthy ((alookup kvs "metadata").getD .jnull)
          then (alookup kvs "metadata").getD .jnull else .jobj []) with
      | .jobj mkvs =>
          match deserializeThetaParams tkvs with
          | .error e => .error e
          | .ok th => .ok ⟨partitions, th, mkvs.map (fun kv => (kv.1, pyStr kv.2))⟩
      | _ => .error "metadata must be a mapping"
  | _ => .error "theta_params must be a mapping"

/-- `_decode_inference_request` on the parsed JSON value: the payload must
be a mapping and `partition_ids` a `Sequence` — a JSON array, or a JSON
string whose characters become the elements (`str` is a `Sequence`). -/
def decodeRequestJson : JVal → Except String InferenceRequest
  | .jobj kvs =>
      (match alookup kvs "partition_ids" with
       | some (.jarr xs) => decodeWithPartitions kvs (xs.map pyStr)
       | some (.jstr s) =>
           decodeWithPartitions kvs (s.data.map (fun c => String.singleton c))
       | _ => .error "partition_ids must be a sequence")
  | _ => .error "invalid inference request format"

/-- `_decode_inference_request` from `inference_worker.py`: JSON-decode
the payload and validate it. -/
def decodeInferenceRequest (payload : String) : Except String InferenceRequest :=
  match jparse payload with
  | none => .error "JSON decode failed"
  | some raw => decodeRequestJson raw

/-- `_serialize_leg` from `inference_worker.py`. -/
def serializeLeg (leg : SignalLeg) : JVal :=
  .jobj [("symbol", .jstr leg.symbol),
         ("side", .jstr leg.side.value),
         ("beta_weight", .jnum leg.beta_weight),
         ("notional", .jnum leg.notional)]

/-- `_serialize_signal` from `inference_worker.py`. -/
def serializeSignal (s : Signal) : JVal :=
  .jobj [("signal_id", .jstr s.signal_id),
         ("timestamp", .jstr (isoformat s.timestamp)),
         ("pair_id", .jstr s.pair_id),
         ("legs", .jarr (s.legs.map serializeLeg)),
         ("return_prob", .jnum s.return_prob),
         ("risk_score", .jnum s.risk_score),
         ("theta1", .jnum s.theta1),
         ("theta2", .jnum s.theta2),
         ("position_scale", .jnum s.position_scale),
         ("model_version", .jstr s.model_version),
         ("valid_until", .jstr (isoformat s.valid_until)),
         ("metadata", .jobj (s.metadata.map (fun kv => (kv.1, .jstr kv.2))))]

/-- Observable actions of one `handle_message` call. -/
inductive WorkerEffect : Type where
  | readSnapshot : WorkerEffect
  | runInference : InferenceRequest → WorkerEffect
  | publish : String → String → WorkerEffect
deriving DecidableEq

/-- `infrastructure/messaging/ops_flags.py` `OpsFlagSnapshot` (plain
fields; construction goes through `mkOpsFlagSnapshot`, the model of
`__post_init__`). -/
structure OpsFlagSnapshot where
  global_halt : Bool
  halted_pairs : List String
  flatten_pairs : List String
  leverage_scale : ℚ
  metadata : List (String × String)
deriving DecidableEq, Repr

/-- `OpsFlagSnapshot.__post_init__`: `leverage_scale` must be positive. -/
def mkOpsFlagSnapshot (gh : Bool) (hp fp : List String) (lev : ℚ)
    (md : List (String × String)) : Except String OpsFlagSnapshot :=
  if lev ≤ 0 then .error "leverage_scale must be positive"
  else .ok ⟨gh, hp, fp, lev, md⟩

/-- `InferenceWorker.handle_message`: decode errors are logged and
swallowed (no effects); an active global halt stops after the flag read;
otherwise the collaborator runs and exactly one signal message is
published.  `snapshot` is the value the flag repository returns at the
`get_snapshot` call and `t0`, `t1` the two monotonic clock readings. -/
def handleMessage (workerId : String) (signalChannel : String)
    (snapshot : OpsFlagSnapshot) (infer : InferenceRequest → InferenceResponse)
    (t0 t1 : ℚ) (payload : String) : List WorkerEffect :=
  match decodeInferenceRequest payload with
  | .error _ => []
  | .ok request =>
      if snapshot.global_halt then [.readSnapshot]
      else
        let response := infer request
        let durationMs := qMul (qSub t1 t0) 1000
        let diagnostics := dictUpd response.diagnostics
          [("inference_duration_ms", .jstr (formatFixed 2 durationMs)),
           ("worker_id", .jstr workerId)]
        let payloadDict : JVal := .jobj
          [("signals", .jarr (response.signals.map serializeSignal)),
           ("metadata", .jobj (request.metadata.map (fun kv => (kv.1, .jstr kv.2)))),
           ("diagnostics", .jobj diagnostics)]
        [.readSnapshot, .runInference request,
         .publish signalChannel (jdump payloadDict)]

/-- The Redis hash backing the ops flags (string fields and values). -/
abbrev Store := List (String × String)

/-- `hset(key, mapping=...)`: update fields in place, append new ones. -/
def hsetStore (store : Store) (mapping : List (String × String)) : Store :=
  dictUpd store mapping

/-- `_default_metadata(reason)`; `now` is `datetime.now(timezone.utc).isoformat()`. -/
def defaultMetadata (now reason : String) : List (String × String) :=
  [("updated_at", now), ("reason", reason), ("source", "ml-assets-core")]

/-- `_metadata_json(reason, extra)`. -/
def metadataJson (now reason : String) (extra : List (String × String)) : String :=
  jdump (.jobj ((dictUpd (defaultMetadata now reason) extra).map strEntry))

/-- `_bool` inside `get_snapshot`: a string is truthy iff it lowercases to
one of `"1"`, `"true"`, `"yes"`, `"on"`. -/
def pyFlagTruthy (v : String) : Bool :=
  let lv : String := ⟨v.data.map Char.toLower⟩
  lv = "1" || lv = "true" || lv = "yes" || lv = "on"

/-- `_loads_sequence`: undecodable or non-sequence values fall back to the
empty list; a JSON string is a Python `Sequence` and yields its
characters. -/
def loadsSequence (value : String) : List String :=
  match jparse value with
  | none => []
  | some (.jarr xs) => xs.map pyStr
  | some (.jstr s) => s.data.map (fun c => String.singleton c)
  | some _ => []

/-- `_loads_mapping`: undecodable or non-mapping values fall back to the
empty dict. -/
def loadsMapping (value : String) : List (String × String) :=
  match jparse value with
  | none => []
  | some (.jobj kvs) => kvs.map (fun kv => (kv.1, pyStr kv.2))
  | some _ => []

/-- `RedisOpsFlagRepository._store_snapshot`. -/
def storeSnapshot (now : String) (snap : OpsFlagSnapshot) (reason : String)
    (store : Store) : Store :=
  hsetStore store
    [("global_halt", if snap.global_halt then "1" else "0"),
     ("halted_pairs", jdump (.jarr (snap.halted_pairs.map .jstr))),
     ("flatten_pairs", jdump (.jarr (snap.flatten_pairs.map .jstr))),
     ("leverage_scale", formatFixed 6 snap.leverage_scale),
     ("metadata", metadataJson now reason snap.metadata)]

/-- The `leverage_scale` field conversion inside `get_snapshot`:
`float(str(data.get("leverage_scale", 1.0)))`. -/
def levFieldOf (store : Store) : Option ℚ :=
  match alookup store "leverage_scale" with
  | some s => parsePyFloat s
  | none => parsePyFloat "1.0"

/-- `RedisOpsFlagRepository.get_snapshot`: an empty store is initialised
with the defaults (which are persisted); otherwise the fields are
deserialised with their documented fallbacks — except `leverage_scale`,
whose `float()` conversion has no fallback and raises on an unparseable
value (and snapshot validation raises on a non-positive one). -/
def getSnapshot (now : String) (store : Store) :
    Except String (OpsFlagSnapshot × Store) :=
  if store.isEmpty then
    match mkOpsFlagSnapshot false [] [] 1 (defaultMetadata now "initialized") with
    | .error e => .error e
    | .ok snap => .ok (snap, storeSnapshot now snap "initialize" store)
  else
    match levFieldOf store with
    | none => .error "could not convert string to float"
    | some lev =>
        match mkOpsFlagSnapshot
          (pyFlagTruthy ((alookup store "global_halt").getD "false"))
          (loadsSequence ((alookup store "halted_pairs").getD "[]"))
          (loadsSequence ((alookup store "flatten_pairs").getD "[]"))
          lev
          (loadsMapping ((alookup store "metadata").getD "\x7b\x7d")) with
        | .error e => .error e
        | .ok snap => .ok (snap, store)

/-- `str(bool)` (`"True"`/`"False"`). -/
def pyBoolStr (b : Bool) : String := if b then "True" else "False"

/-- `RedisOpsFlagRepository.set_global_halt`. -/
def setGlobalHalt (now : String) (value : Bool) (reason : String)
    (store : Store) : Store :=
  hsetStore store
    [("global_halt", if value then "1" else "0"),
     ("metadata", metadataJson now reason [("global_halt", pyBoolStr value)])]

/-- `",".join(xs)`. -/
def joinWith (sep : String) : List String → String
  | [] => ""
  | [x] => x
  | x :: y :: t => x ++ sep ++ joinWith sep (y :: t)

/-- `RedisOpsFlagRepository.set_halted_pairs`. -/
def setHaltedPairs (now : String) (pairs : List String) (reason : String)
    (store : Store) : Store :=
  hsetStore store
    [("halted_pairs", jdump (.jarr ((pySortedSet pairs).map .jstr))),
     ("metadata", metadataJson now reason
        [("halted_pairs", joinWith "," (pySortedSet pairs))])]

/-- `RedisOpsFlagRepository.set_flatten_pairs`. -/
def setFlattenPairs (now : String) (pairs : List String) (reason : String)
    (store : Store) : Store :=
  hsetStore store
    [("flatten_pairs", jdump (.jarr ((pySortedSet pairs).map .jstr))),
     ("metadata", metadataJson now reason
        [("flatten_pairs", joinWith "," (pySortedSet pairs))])]

/-- `RedisOpsFlagRepository.set_leverage_scale`: raises on a non-positive
value, leaving the store untouched. -/
def setLeverageScale (now : String) (value : ℚ) (reason : String)
    (store : Store) : Except String Store :=
  if value ≤ 0 then .error "leverage_scale must be positive"
  else .ok (hsetStore store
    [("leverage_scale", formatFixed 6 value),
     ("metadata", metadataJson now reason
        [("leverage_scale", formatFixed 6 value)])])

/-- `application/usecases/ops.py` `OpsCommand`. -/
structure OpsCommand where
  command : String
  arguments : List (String × String)
  metadata : List (String × String)
deriving DecidableEq, Repr

/-- `application/usecases/ops.py` `OpsResponse`. -/
structure OpsResponse where
  status : String
  message : String
  details : List (String × String)
deriving DecidableEq, Repr

/-- Observable actions of one `OpsService.execute` call. -/
inductive OpsEffect : Type where
  | audit : String → List (String × String) → OpsEffect
  | publishEvent : String → String → OpsEffect
  | notify : String → String → List (String × String) → OpsEffect
deriving DecidableEq

/-- Optional collaborators handed to `OpsService.__init__`:
`opsEventChannel` is set when both the event publisher and the channel are
configured, `hasNotifier` when a notifier is. -/
structure OpsConfig where
  opsEventChannel : Option String
  hasNotifier : Bool
deriving DecidableEq, Repr

/-- `str(b).lower()`. -/
def pyBoolLower (b : Bool) : String := if b then "true" else "false"

/-- `_snapshot_to_details`. -/
def snapshotToDetails (snap : OpsFlagSnapshot) : List (String × String) :=
  [("global_halt", pyBoolLower snap.global_halt),
   ("halted_pairs", joinWith "," snap.halted_pairs),
   ("flatten_pairs", joinWith "," snap.flatten_pairs),
   ("leverage_scale", formatFixed 6 snap.leverage_scale)] ++
    snap.metadata.map (fun kv => ("meta_" ++ kv.1, kv.2))

/-- `command.metadata.get("actor", default)`. -/
def actorOf (cmd : OpsCommand) (default : String) : String :=
  (alookup cmd.metadata "actor").getD default

/-- `OpsService._handle_status`. -/
def handleStatus (now : String) (_cmd : OpsCommand) (store : Store) :
    Except String (OpsResponse × Store) :=
  match getSnapshot now store with
  | .error e => .error e
  | .ok (snap, store') =>
      .ok (⟨"ok", "Ops status snapshot", snapshotToDetails snap⟩, store')

/-- `OpsService._handle_halt_global`. -/
def handleHaltGlobal (now : String) (cmd : OpsCommand) (store : Store) :
    Except String (OpsResponse × Store) :=
  let store1 := setGlobalHalt now true (actorOf cmd "manual_halt") store
  match getSnapshot now store1 with
  | .error e => .error e
  | .ok (snap, store2) =>
      .ok (⟨"ok", "Global trading halt activated.", snapshotToDetails snap⟩, store2)

/-- `OpsService._handle_resume_global`. -/
def handleResumeGlobal (now : String) (cmd : OpsCommand) (store : Store) :
    Except String (OpsResponse × Store) :=
  let store1 := setGlobalHalt now false (actorOf cmd "manual_resume") store
  match getSnapshot now store1 with
  | .error e => .error e
  | .ok (snap, store2) =>
      .ok (⟨"ok", "Global trading halt disabled.", snapshotToDetails snap⟩, store2)

/-- `OpsService._handle_halt_pairs`. -/
def handleHaltPairs (now : String) (cmd : OpsCommand) (store : Store) :
    Except String (OpsResponse × Store) :=
  let pairs := splitCsv ((alookup cmd.arguments "pairs").getD "")
  if pairs.isEmpty then .ok (⟨"error", "pairs 引数が必要です。", []⟩, store)
  else
    let store1 := setHaltedPairs now pairs (actorOf cmd "manual_halt_pairs") store
    match getSnapshot now store1 with
    | .error e => .error e
    | .ok (snap, store2) =>
        .ok (⟨"ok", "Halted pairs updated: " ++ joinWith ", " pairs,
          snapshotToDetails snap⟩, store2)

/-- `OpsService._handle_flatten_pairs`. -/
def handleFlattenPairs (now : String) (cmd : OpsCommand) (store : Store) :
    Except String (OpsResponse × Store) :=
  let pairs := splitCsv ((alookup cmd.arguments "pairs").getD "")
  if pairs.isEmpty then .ok (⟨"error", "pairs 引数が必要です。", []⟩, store)
  else
    let store1 := setFlattenPairs now pairs (actorOf cmd "manual_flatten") store
    match getSnapshot now store1 with
    | .error e => .error e
    | .ok (snap, store2) =>
        .ok (⟨"ok", "Flatten pairs updated: " ++ joinWith ", " pairs,
          snapshotToDetails snap⟩, store2)

/-- `OpsService._handle_set_leverage`. -/
def handleSetLeverage (now : String) (cmd : OpsCommand) (store : Store) :
    Except String (OpsResponse × Store) :=
  match alookup cmd.arguments "leverage" with
  | none => .ok (⟨"error", "leverage 引数が必要です。", []⟩, store)
  | some s =>
      match parsePyFloat s with
      | none =>
          .ok (⟨"error",
            "leverage 引数が不正です: could not convert string to float", []⟩, store)
      | some v =>
          if v ≤ 0 then
            .ok (⟨"error", "leverage は正の値でなければなりません。", []⟩, store)
          else
            match setLeverageScale now v (actorOf cmd "manual_leverage") store with
            | .error e => .error e
            | .ok store1 =>
                match getSnapshot now store1 with
                | .error e => .error e
                | .ok (snap, store2) =>
                    .ok (⟨"ok", "Leverage scale set to " ++ ⟨floatChars v⟩,
                      snapshotToDetails snap⟩, store2)

/-- ASCII lowering of the command name (`command.command.lower()`; the six
recognised names are pure ASCII, on which Python's Unicode lowering and
ASCII lowering agree). -/
def pyLower (s : String) : String := ⟨s.data.map Char.toLower⟩

/-- The handler table realised by `getattr(self, f"_handle_{name}")`: the
class defines exactly six `_handle_*` methods. -/
def handlerFor (name : String) :
    Option (String → OpsCommand → Store → Except String (OpsResponse × Store)) :=
  if name = "status" then some handleStatus
  else if name = "halt_global" then some handleHaltGlobal
  else if name = "resume_global" then some handleResumeGlobal
  else if name = "halt_pairs" then some handleHaltPairs
  else if name = "flatten_pairs" then some handleFlattenPairs
  else if name = "set_leverage" then some handleSetLeverage
  else none

/-- The ops event payload published on success. -/
def opsEventPayload (cmd : OpsCommand) (resp : OpsResponse) : JVal :=
  .jobj [("command", .jstr cmd.command),
         ("arguments", .jobj (cmd.arguments.map strEntry)),
         ("metadata", .jobj (cmd.metadata.map strEntry)),
         ("status", .jstr resp.status),
         ("details", .jobj (resp.details.map strEntry))]

/-- The notifier fields built on success. -/
def notifyFields (cmd : OpsCommand) (resp : OpsResponse) : List (String × String) :=
  dictUpd (dictUpd [("command", cmd.command)]
    (cmd.arguments.map (fun kv => ("arg_" ++ kv.1, kv.2)))) resp.details

/-- `OpsService.execute`: dispatch on the lowercased command name; unknown
commands return an error immediately with no effects; recognised commands
run their handler, log exactly one audit entry, and publish an ops event
and a notification only when the response status is `"ok"`. -/
def auditPayloadOf (cmd : OpsCommand) (resp : OpsResponse) : List (String × String) :=
  dictUpd (dictUpd [("status", resp.status), ("message", resp.message)]
    cmd.metadata) cmd.arguments

def publishEffsOf (cfg : OpsConfig) (cmd : OpsCommand) (resp : OpsResponse) :
    List OpsEffect :=
  match cfg.opsEventChannel with
  | some ch =>
      if resp.status = "ok" then
        [.publishEvent ch (jdump (opsEventPayload cmd resp))]
      else []
  | none => []

def notifyEffsOf (cfg : OpsConfig) (name : String) (cmd : OpsCommand)
    (resp : OpsResponse) : List OpsEffect :=
  if cfg.hasNotifier && resp.status = "ok" then
    [.notify ("ops." ++ name) resp.message (notifyFields cmd resp)]
  else []

def opsExecute (cfg : OpsConfig) (now : String) (store : Store)
    (cmd : OpsCommand) : Except String (OpsResponse × Store × List OpsEffect) :=
  match handlerFor (pyLower cmd.command) with
  | none =>
      .ok (⟨"error", "Unsupported command '" ++ cmd.command ++ "'", []⟩, store, [])
  | some h =>
      match h now cmd store with
      | .error e => .error e
      | .ok (resp, store') =>
          .ok (resp, store',
            .audit ("ops." ++ pyLower cmd.command) (auditPayloadOf cmd resp) ::
              publishEffsOf cfg cmd resp ++
                notifyEffsOf cfg (pyLower cmd.command) cmd resp)

/-- One message delivery as seen by the Redis subscriber's listener
(`None` models a poll timeout). -/
structure RedisMsg where
  mtype : String
  mdata : String
deriving DecidableEq, Repr

/-- The background listener started by `RedisSubscriberImpl.subscribe`,
run over a finite prefix of deliveries: non-message deliveries and
timeouts are skipped; the callback is invoked on each message payload.
The callback is modelled as returning `none` when it raises.  Returns the
payloads on which the callback was invoked, and whether the listener
terminated by an escaped callback exception (after which the `finally`
block closes the pubsub and the thread dies). -/
def listenerRun (cb : String → Option Unit) :
    List (Option RedisMsg) → List String × Bool
  | [] => ([], false)
  | none :: rest => listenerRun cb rest
  | some m :: rest =>
      if m.mtype ≠ "message" then listenerRun cb rest
      else
        match cb m.mdata with
        | some _ =>
            let r := listenerRun cb rest
            (m.mdata :: r.1, r.2)
        | none => ([m.mdata], true)

/-- The payloads of the `"message"`-typed deliveries in a trace. -/
def messagePayloads : List (Option RedisMsg) → List String
  | [] => []
  | none :: rest => messagePayloads rest
  | some m :: rest =>
      if m.mtype ≠ "message" then messagePayloads rest
      else m.mdata :: messagePayloads rest

theorem alookup_cons {α : Type} (a : String) (b : α) (t : List (String × α))
    (k : String) :
    alookup ((a, b) :: t) k = if a = k then some b else alookup t k := by
  by_cases h : a = k <;> simp [alookup, List.find?, h]

theorem alookup_map_update_same {α : Type} (m : List (String × α)) (k : String)
    (v : α) (h : m.any (fun p => p.1 = k) = true) :
    alookup (m.map (fun p => if p.1 = k then (p.1, v) else p)) k = some v := by
  induction m with
  | nil => simp at h
  | cons p t ih =>
      rcases p with ⟨k0, v0⟩
      by_cases hk : k0 = k
      · subst hk
        simp [alookup_cons]
      · have ht : t.any (fun p => p.1 = k) = true := by
          simpa [hk] using h
        simp only [List.map_cons, if_neg hk, alookup_cons, hk, if_false]
        exact ih ht

theorem alookup_map_update_ne {α : Type} (m : List (String × α)) (k : String)
    (v : α) (k' : String) (h : k' ≠ k) :
    alookup (m.map (fun p => if p.1 = k then (p.1, v) else p)) k' = alookup m k' := by
  induction m with
  | nil => simp
  | cons p t ih =>
      rcases p with ⟨k0, v0⟩
      by_cases hk : k0 = k
      · subst hk
        have hne : ¬k0 = k' := fun hc => h hc.symm
        simp only [List.map_cons, if_pos trivial, reduceIte]
        rw [alookup_cons, alookup_cons, if_neg hne, if_neg hne]
        exact ih
      · simp only [List.map_cons]
        rw [if_neg hk, alookup_cons, alookup_cons]
        by_cases hk' : k0 = k'
        · simp [hk']
        · simp only [hk', if_false]
          exact ih

theorem alookup_append_one {α : Type} (m : List (String × α)) (k : String) (v : α)
    (k' : String) :
    alookup (m ++ [(k, v)]) k' =
      (match alookup m k' with
       | some w => some w
       | none => if k = k' then some v else none) := by
  induction m with
  | nil => simp [alookup_cons, alookup]
  | cons p t ih =>
      rcases p with ⟨k0, v0⟩
      by_cases hk : k0 = k'
      · simp [alookup_cons, hk]
      · simp only [List.cons_append, alookup_cons, hk, if_false]
        exact ih

theorem alookup_eq_none_of_not_any {α : Type} (m : List (String × α)) (k : String)
    (h : m.any (fun p => p.1 = k) = false) : alookup m k = none := by
  induction m with
  | nil => rfl
  | cons p t ih =>
      rcases p with ⟨k0, v0⟩
      have hk : ¬k0 = k := by
        intro hc
        simp [hc] at h
      have ht : t.any (fun p => p.1 = k) = false := by
        simp only [List.any_cons, Bool.or_eq_false_iff] at h
        exact h.2
      rw [alookup_cons, if_neg hk]
      exact ih ht

theorem alookup_dictUpd1_same {α : Type} (m : List (String × α)) (k : String) (v : α) :
    alookup (dictUpd1 m (k, v)) k = some v := by
  unfold dictUpd1
  by_cases h : m.any (fun p => p.1 = (k, v).1) = true
  · rw [if_pos h]
    exact alookup_map_update_same m k v h
  · rw [if_neg h]
    have hnone : alookup m k = none :=
      alookup_eq_none_of_not_any m k (Bool.eq_false_iff.mpr h)
    rw [alookup_append_one, hnone]
    simp

theorem alookup_dictUpd1_ne {α : Type} (m : List (String × α)) (k : String) (v : α)
    (k' : String) (h : k' ≠ k) :
    alookup (dictUpd1 m (k, v)) k' = alookup m k' := by
  unfold dictUpd1
  by_cases hany : m.any (fun p => p.1 = (k, v).1) = true
  · rw [if_pos hany]
    exact alookup_map_update_ne m k v k' h
  · rw [if_neg hany]
    rw [alookup_append_one]
    rcases ho : alookup m k' with _ | w
    · have : ¬k = k' := fun hc => h hc.symm
      simp [this]
    · simp

/-- The repository's pair-list encoding round-trips through the store. -/
theorem loadsSequence_dump (l : List String) :
    loadsSequence (jdump (.jarr (l.map .jstr))) = l := by
  rw [loadsSequence]
  rw [jparse_jdump_arrStr l]
  have : ∀ xs : List String, (xs.map JVal.jstr).map pyStr = xs := by
    intro xs
    induction xs with
    | nil => rfl
    | cons x t ih => simp [pyStr, ih]
  simpa using this l

/-- The repository's metadata encoding round-trips through the store. -/
theorem loadsMapping_dump (m : List (String × String))
    (hnd : (m.map Prod.fst).Nodup) :
    loadsMapping (jdump (.jobj (m.map strEntry))) = m := by
  rw [loadsMapping]
  rw [jparse_jdump_objStr m hnd]
  have : ∀ xs : List (String × String),
      (xs.map strEntry).map (fun kv => (kv.1, pyStr kv.2)) = xs := by
    intro xs
    induction xs with
    | nil => rfl
    | cons x t ih =>
        rcases x with ⟨k, v⟩
        simp only [List.map_cons, strEntry, List.cons.injEq]
        exact ⟨rfl, ih⟩
  simpa using this m

/-- Fixture: a minimal valid inference payload with an empty partition list. -/
def wPayloadEmptyParts : String :=
  "\x7b\"partition_ids\": [], \"theta_params\": \x7b\"theta1\": 0, \"theta2\": 0, \"updated_at\": \"2024-01-02\", \"updated_by\": \"x\"\x7d\x7d"

/-- Fixture: the theta parameters decoded from the fixtures. -/
def wTheta : ThetaParams := ⟨0, 0, ⟨2024, 1, 2, 0, 0, 0, 0, none⟩, "x", none⟩

/-- Fixture: a collaborator returning no signals and one diagnostic. -/
def wInfer : InferenceRequest → InferenceResponse :=
  fun _ => ⟨[], [("latency_ms", .jint 10)]⟩

/-- Fixture: a halted snapshot value. -/
def wHaltSnap : OpsFlagSnapshot := ⟨true, [], [], 1, []⟩

/-- Fixture: a clear snapshot value. -/
def wLiveSnap : OpsFlagSnapshot := ⟨false, [], [], 1, []⟩

instance {ε α : Type} [DecidableEq ε] [DecidableEq α] : DecidableEq (Except ε α) :=
  fun a b =>
    match a, b with
    | .ok x, .ok y =>
        if h : x = y then isTrue (by rw [h])
        else isFalse (fun hc => h (by injection hc))
    | .error x, .error y =>
        if h : x = y then isTrue (by rw [h])
        else isFalse (fun hc => h (by injection hc))
    | .ok _, .error _ => isFalse (fun hc => Except.noConfusion hc)
    | .error _, .ok _ => isFalse (fun hc => Except.noConfusion hc)

example : decodeInferenceRequest wPayloadEmptyParts = .ok ⟨[], wTheta, []⟩ := by decide

/-- C1: whenever `handle_message` receives a payload that decodes into a
valid inference request and the flag snapshot it reads has
`global_halt = true`, the inference collaborator is never invoked and no
message is published to the signal channel. -/
theorem halt_gate_blocks_inference (workerId signalChannel : String)
    (snapshot : OpsFlagSnapshot) (infer : InferenceRequest → InferenceResponse)
    (t0 t1 : ℚ) (payload : String) (req : InferenceRequest)
    (hdec : decodeInferenceRequest payload = .ok req)
    (hhalt : snapshot.global_halt = true) :
    (∀ r, WorkerEffect.runInference r ∉
        handleMessage workerId signalChannel snapshot infer t0 t1 payload) ∧
    (∀ ch p, WorkerEffect.publish ch p ∉
        handleMessage workerId signalChannel snapshot infer t0 t1 payload) := by
  have hred : handleMessage workerId signalChannel snapshot infer t0 t1 payload =
      [.readSnapshot] := by
    unfold handleMessage
    rw [hdec, hhalt]
    rfl
  rw [hred]
  constructor
  · intro r hmem
    simp at hmem
  · intro ch p hmem
    simp at hmem

/-- C1 witness: the halted snapshot at a concrete valid payload. -/
theorem halt_gate_blocks_inference_witness :
    decodeInferenceRequest wPayloadEmptyParts = .ok ⟨[], wTheta, []⟩ ∧
    wHaltSnap.global_halt = true ∧
    (∀ r, WorkerEffect.runInference r ∉
        handleMessage "worker-1" "core:inference:signals" wHaltSnap wInfer 0 1
          wPayloadEmptyParts) :=
  ⟨by decide, rfl,
    (halt_gate_blocks_inference "worker-1" "core:inference:signals" wHaltSnap wInfer
      0 1 wPayloadEmptyParts ⟨[], wTheta, []⟩ (by decide) rfl).1⟩

/-- C8: a payload that fails to decode is dropped after logging:
`handle_message` returns without reading the flag store, without invoking
inference and without publishing (the empty effect list — in particular
the decode error is caught, not re-raised). -/
theorem decode_failure_drops_message (workerId signalChannel : String)
    (snapshot : OpsFlagSnapshot) (infer : InferenceRequest → InferenceResponse)
    (t0 t1 : ℚ) (payload : String) (e : String)
    (hdec : decodeInferenceRequest payload = .error e) :
    handleMessage workerId signalChannel snapshot infer t0 t1 payload = [] := by
  unfold handleMessage
  rw [hdec]

/-- C8 witness: an ill-formed payload. -/
theorem decode_failure_drops_message_witness :
    decodeInferenceRequest "not json" = .error "JSON decode failed" ∧
    handleMessage "worker-1" "core:inference:signals" wLiveSnap wInfer 0 1
      "not json" = [] :=
  ⟨by decide,
    decode_failure_drops_message "worker-1" "core:inference:signals" wLiveSnap wInfer
      0 1 "not json" "JSON decode failed" (by decide)⟩

/-- C5: with the halt clear, a validly decoded request leads to exactly
one publish on the signal channel, whose payload is the JSON object with
the serialized signals (enum sides as strings, ISO-8601 timestamps), the
request metadata, and the collaborator diagnostics extended with
`inference_duration_ms` and `worker_id`. -/
theorem live_path_publishes_once (workerId signalChannel : String)
    (snapshot : OpsFlagSnapshot) (infer : InferenceRequest → InferenceResponse)
    (t0 t1 : ℚ) (payload : String) (req : InferenceRequest)
    (hdec : decodeInferenceRequest payload = .ok req)
    (hlive : snapshot.global_halt = false) :
    handleMessage workerId signalChannel snapshot infer t0 t1 payload =
      [.readSnapshot, .runInference req,
       .publish signalChannel (jdump (.jobj
         [("signals", .jarr ((infer req).signals.map serializeSignal)),
          ("metadata", .jobj (req.metadata.map (fun kv => (kv.1, .jstr kv.2)))),
          ("diagnostics", .jobj (dictUpd (infer req).diagnostics
            [("inference_duration_ms", .jstr (formatFixed 2 (qMul (qSub t1 t0) 1000))),
             ("worker_id", .jstr workerId)]))]))] := by
  unfold handleMessage
  rw [hdec, hlive]
  rfl

/-- C5 witness: concrete request, collaborator and clock readings. -/
theorem live_path_publishes_once_witness :
    decodeInferenceRequest wPayloadEmptyParts = .ok ⟨[], wTheta, []⟩ ∧
    handleMessage "worker-1" "core:inference:signals" wLiveSnap wInfer 0 1
        wPayloadEmptyParts =
      [.readSnapshot, .runInference ⟨[], wTheta, []⟩,
       .publish "core:inference:signals" (jdump (.jobj
         [("signals", .jarr []),
          ("metadata", .jobj []),
          ("diagnostics", .jobj (dictUpd (wInfer ⟨[], wTheta, []⟩).diagnostics
            [("inference_duration_ms", .jstr (formatFixed 2 (qMul (qSub 1 0) 1000))),
             ("worker_id", .jstr "worker-1")]))]))] :=
  ⟨by decide,
    live_path_publishes_once "worker-1" "core:inference:signals" wLiveSnap wInfer
      0 1 wPayloadEmptyParts ⟨[], wTheta, []⟩ (by decide) rfl⟩

/-- C10 (implicit): the decoder does not require `partition_ids` to be a
non-empty JSON array — an otherwise-valid payload with an empty array
decodes to a request with zero partitions, one with a JSON string decodes
to the string's characters, and `handle_message` then proceeds to invoke
inference on such requests rather than dropping them. -/
theorem decode_accepts_empty_and_string_partitions
    (payload : String) (kvs tkvs : List (String × JVal)) (th : ThetaParams)
    (mkvs : List (String × JVal))
    (hparse : jparse payload = some (.jobj kvs))
    (hth : alookup kvs "theta_params" = some (.jobj tkvs))
    (hthok : deserializeThetaParams tkvs = .ok th)
    (hmd : (if pyTruthy ((alookup kvs "metadata").getD .jnull)
        then (alookup kvs "metadata").getD .jnull else .jobj []) = .jobj mkvs) :
    (alookup kvs "partition_ids" = some (.jarr []) →
      decodeInferenceRequest payload =
        .ok ⟨[], th, mkvs.map (fun kv => (kv.1, pyStr kv.2))⟩) ∧
    (∀ s : String, alookup kvs "partition_ids" = some (.jstr s) →
      decodeInferenceRequest payload =
        .ok ⟨s.data.map (fun c => String.singleton c), th,
          mkvs.map (fun kv => (kv.1, pyStr kv.2))⟩) ∧
    (∀ workerId signalChannel snapshot infer t0 t1 req,
      decodeInferenceRequest payload = .ok req →
      snapshot.global_halt = false →
      WorkerEffect.runInference req ∈
        handleMessage workerId signalChannel snapshot infer t0 t1 payload) := by
  refine ⟨?_, ?_, ?_⟩
  · intro hparts
    simp only [decodeInferenceRequest, hparse, decodeRequestJson, hparts,
      decodeWithPartitions, hth, hmd, hthok, List.map_nil]
  · intro s hparts
    simp only [decodeInferenceRequest, hparse, decodeRequestJson, hparts,
      decodeWithPartitions, hth, hmd, hthok]
  · intro workerId signalChannel snapshot infer t0 t1 req hreq hlive
    unfold handleMessage
    rw [hreq, hlive]
    simp

/-- C10 witness: string-valued `partition_ids` decoding to its characters,
then reaching inference. -/
theorem decode_accepts_empty_and_string_partitions_witness :
    jparse "\x7b\"partition_ids\": \"AB\", \"theta_params\": \x7b\"theta1\": 0, \"theta2\": 0, \"updated_at\": \"2024-01-02\", \"updated_by\": \"x\"\x7d\x7d" =
      some (.jobj [("partition_ids", .jstr "AB"),
        ("theta_params", .jobj [("theta1", .jint 0), ("theta2", .jint 0),
          ("updated_at", .jstr "2024-01-02"), ("updated_by", .jstr "x")])]) ∧
    decodeInferenceRequest "\x7b\"partition_ids\": \"AB\", \"theta_params\": \x7b\"theta1\": 0, \"theta2\": 0, \"updated_at\": \"2024-01-02\", \"updated_by\": \"x\"\x7d\x7d" =
      .ok ⟨["A", "B"], wTheta, []⟩ :=
  ⟨by decide, by
    have h := (decode_accepts_empty_and_string_partitions
      "\x7b\"partition_ids\": \"AB\", \"theta_params\": \x7b\"theta1\": 0, \"theta2\": 0, \"updated_at\": \"2024-01-02\", \"updated_by\": \"x\"\x7d\x7d"
      [("partition_ids", .jstr "AB"),
        ("theta_params", .jobj [("theta1", .jint 0), ("theta2", .jint 0),
          ("updated_at", .jstr "2024-01-02"), ("updated_by", .jstr "x")])]
      [("theta1", .jint 0), ("theta2", .jint 0),
        ("updated_at", .jstr "2024-01-02"), ("updated_by", .jstr "x")]
      wTheta [] (by decide) (by decide) (by decide) (by decide)).2.1 "AB" (by decide)
    simpa using h⟩

/-- Fixture: a callback that raises on the payload `"boom"`. -/
def wBoomCb : String → Option Unit := fun s => if s = "boom" then none else some ()

/-- Fixture: two message deliveries, the first of which makes the callback
raise. -/
def wBoomTrace : List (Option RedisMsg) :=
  [some ⟨"message", "boom"⟩, some ⟨"message", "after"⟩]

/-- C3 counterexample: the claim says the listener tolerates a callback
exception and still dispatches every subsequent message; on the code, a
callback exception terminates the listener, so the second message is
never dispatched. -/
theorem listener_crashes_on_callback_exception :
    listenerRun wBoomCb wBoomTrace = (["boom"], true) ∧
    "after" ∈ messagePayloads wBoomTrace ∧
    "after" ∉ (listenerRun wBoomCb wBoomTrace).1 := by
  decide

/-- C3 (amended): the listener does not catch callback exceptions — it
dispatches the message-typed payloads in order until the first one on
which the callback raises; that exception escapes the loop, the `finally`
closes the pubsub and the listener terminates, so no subsequent message is
dispatched. -/
theorem listener_stops_at_first_callback_exception
    (cb : String → Option Unit) (pre : List (Option RedisMsg)) (m : RedisMsg)
    (rest : List (Option RedisMsg))
    (hpre : ∀ p ∈ messagePayloads pre, cb p = some ())
    (hm : m.mtype = "message") (hboom : cb m.mdata = none) :
    listenerRun cb (pre ++ some m :: rest) = (messagePayloads pre ++ [m.mdata], true) := by
  induction pre with
  | nil =>
      have hne : ¬m.mtype ≠ "message" := by simp [hm]
      simp only [List.nil_append, listenerRun, hne, if_false, hboom]
      rfl
  | cons d t ih =>
      rcases d with _ | msg
      · have ht : ∀ p ∈ messagePayloads t, cb p = some () := by
          intro p hp
          exact hpre p (by simpa [messagePayloads] using hp)
        simp only [List.cons_append, listenerRun, messagePayloads]
        exact ih ht
      · by_cases hmt : msg.mtype ≠ "message"
        · have ht : ∀ p ∈ messagePayloads t, cb p = some () := by
            intro p hp
            apply hpre p
            simpa [messagePayloads, hmt] using hp
          simp only [List.cons_append, listenerRun, messagePayloads, if_pos hmt]
          exact ih ht
        · have hcb : cb msg.mdata = some () := by
            apply hpre
            simp [messagePayloads, hmt]
          have ht : ∀ p ∈ messagePayloads t, cb p = some () := by
            intro p hp
            apply hpre p
            simp [messagePayloads, hmt, hp]
          simp only [List.cons_append, listenerRun, messagePayloads, if_neg hmt,
            hcb, List.append_eq]
          rw [ih ht]

/-- C3 witness: a well-behaved prefix, then the raising message. -/
theorem listener_stops_at_first_callback_exception_witness :
    (∀ p ∈ messagePayloads [some ⟨"message", "ok1"⟩], wBoomCb p = some ()) ∧
    listenerRun wBoomCb ([some ⟨"message", "ok1"⟩] ++
        some (⟨"message", "boom"⟩ : RedisMsg) :: [some ⟨"message", "after"⟩]) =
      (messagePayloads [some ⟨"message", "ok1"⟩] ++ ["boom"], true) :=
  ⟨by decide,
    listener_stops_at_first_callback_exception wBoomCb [some ⟨"message", "ok1"⟩]
      ⟨"message", "boom"⟩ [some ⟨"message", "after"⟩] (by decide) rfl (by decide)⟩

theorem publishEffs_no_audit (cfg : OpsConfig) (cmd : OpsCommand)
    (resp : OpsResponse) :
    (publishEffsOf cfg cmd resp).countP
      (fun e => match e with | .audit _ _ => true | _ => false) = 0 := by
  rcases hoc : cfg.opsEventChannel with _ | ch
  · simp [publishEffsOf, hoc]
  · simp only [publishEffsOf, hoc]
    by_cases h : resp.status = "ok"
    · rw [if_pos h]
      rfl
    · rw [if_neg h]
      rfl

theorem notifyEffs_no_audit (cfg : OpsConfig) (name : String) (cmd : OpsCommand)
    (resp : OpsResponse) :
    (notifyEffsOf cfg name cmd resp).countP
      (fun e => match e with | .audit _ _ => true | _ => false) = 0 := by
  unfold notifyEffsOf
  by_cases h : (cfg.hasNotifier && resp.status = "ok") = true
  · rw [if_pos h]
    rfl
  · rw [if_neg h]
    rfl

/-- C6: a command whose lowercased name has no handler is rejected
immediately — error status, no audit entry, no event, no notification and
an unchanged store; every recognised command logs exactly one audit entry
named `ops.<command>`, whether its response is `ok` or `error`. -/
theorem ops_unknown_rejected_audit_once :
    (∀ (cfg : OpsConfig) (now : String) (store : Store) (cmd : OpsCommand),
      handlerFor (pyLower cmd.command) = none →
      opsExecute cfg now store cmd =
        .ok (⟨"error", "Unsupported command '" ++ cmd.command ++ "'", []⟩, store, [])) ∧
    (∀ (cfg : OpsConfig) (now : String) (store : Store) (cmd : OpsCommand)
        (resp : OpsResponse) (store' : Store) (effs : List OpsEffect),
      (handlerFor (pyLower cmd.command)).isSome →
      opsExecute cfg now store cmd = .ok (resp, store', effs) →
      effs.countP (fun e => match e with | .audit _ _ => true | _ => false) = 1 ∧
      ∃ pl, OpsEffect.audit ("ops." ++ pyLower cmd.command) pl ∈ effs) := by
  constructor
  · intro cfg now store cmd hnone
    unfold opsExecute
    rw [hnone]
  · intro cfg now store cmd resp store' effs hsome hexec
    obtain ⟨h, hh⟩ := Option.isSome_iff_exists.mp hsome
    unfold opsExecute at hexec
    simp only [hh] at hexec
    rcases hr : h now cmd store with e | ⟨resp0, st0⟩
    · rw [hr] at hexec
      cases hexec
    · rw [hr] at hexec
      simp only [Except.ok.injEq, Prod.mk.injEq] at hexec
      obtain ⟨hresp, hst, heffs⟩ := hexec
      subst hresp
      subst heffs
      constructor
      · simp only [List.countP_cons, List.countP_append,
          publishEffs_no_audit, notifyEffs_no_audit]
        rfl
      · exact ⟨_, List.mem_cons_self _ _⟩

/-- C6 witness: the unknown command `"bogus"` and the recognised command
`"status"` on an initialised store. -/
theorem ops_unknown_rejected_audit_once_witness :
    handlerFor (pyLower "bogus") = none ∧
    opsExecute ⟨none, false⟩ "t" [("global_halt", "0")] ⟨"bogus", [], []⟩ =
      .ok (⟨"error", "Unsupported command 'bogus'", []⟩, [("global_halt", "0")], []) ∧
    (∃ resp store' effs,
      opsExecute ⟨none, false⟩ "t" [("global_halt", "0")] ⟨"status", [], []⟩ =
        .ok (resp, store', effs) ∧
      effs.countP (fun e => match e with | .audit _ _ => true | _ => false) = 1) := by
  have hx : opsExecute ⟨none, false⟩ "t" [("global_halt", "0")] ⟨"status", [], []⟩ =
      .ok (⟨"ok", "Ops status snapshot",
        [("global_halt", "false"), ("halted_pairs", ""), ("flatten_pairs", ""),
         ("leverage_scale", "1.000000")]⟩, [("global_halt", "0")],
        [.audit "ops.status" [("status", "ok"), ("message", "Ops status snapshot")]]) := by
    decide
  refine ⟨rfl, ?_, ?_⟩
  · exact ops_unknown_rejected_audit_once.1 ⟨none, false⟩ "t" [("global_halt", "0")]
      ⟨"bogus", [], []⟩ rfl
  · exact ⟨_, _, _, hx,
      (ops_unknown_rejected_audit_once.2 ⟨none, false⟩ "t" [("global_halt", "0")]
        ⟨"status", [], []⟩ _ _ _ (by decide) hx).1⟩

theorem dictUpd1_ne_nil {α : Type} (m : List (String × α)) (kv : String × α) :
    dictUpd1 m kv ≠ [] := by
  unfold dictUpd1
  split_ifs with h
  · intro hc
    rw [List.map_eq_nil_iff] at hc
    subst hc
    simp at h
  · simp

theorem isEmpty_false_of_ne_nil {α : Type} (l : List α) (h : l ≠ []) :
    l.isEmpty = false := by
  cases l with
  | nil => exact absurd rfl h
  | cons a t => rfl

theorem alookup_snapshotToDetails_halted (snap : OpsFlagSnapshot) :
    alookup (snapshotToDetails snap) "halted_pairs" =
      some (joinWith "," snap.halted_pairs) := by
  unfold snapshotToDetails
  rw [List.cons_append, alookup_cons,
    if_neg (by decide : ¬("global_halt" = "halted_pairs")),
    List.cons_append, alookup_cons, if_pos rfl]

/-- C7: issuing `halt_pairs` with any comma-separated pairs argument that
is non-empty after trimming stores the trimmed, deduplicated, sorted pair
set: the response is `ok`, its `details["halted_pairs"]` is the
comma-join of that set, and every subsequent snapshot reads exactly that
set back.  (`q` is the positive leverage value stored in — or defaulted
by — the current store.) -/
theorem halt_pairs_round_trip (cfg : OpsConfig) (now : String) (store : Store)
    (cmd : OpsCommand) (parg : String) (q : ℚ)
    (hname : pyLower cmd.command = "halt_pairs")
    (harg : alookup cmd.arguments "pairs" = some parg)
    (hne : splitCsv parg ≠ [])
    (hlev : levFieldOf store = some q) (hq : 0 < q) :
    ∃ resp store' effs,
      opsExecute cfg now store cmd = .ok (resp, store', effs) ∧
      resp.status = "ok" ∧
      alookup resp.details "halted_pairs" =
        some (joinWith "," (pySortedSet (splitCsv parg))) ∧
      ∀ now2, ∃ snap st2, getSnapshot now2 store' = .ok (snap, st2) ∧
        snap.halted_pairs = pySortedSet (splitCsv parg) := by
  have hpe : (splitCsv parg).isEmpty = false := isEmpty_false_of_ne_nil _ hne
  have hq' : ¬q ≤ 0 := not_le.mpr hq
  -- the store written by the handler
  have hupd : setHaltedPairs now (splitCsv parg) (actorOf cmd "manual_halt_pairs") store =
      dictUpd1 (dictUpd1 store
        ("halted_pairs", jdump (.jarr ((pySortedSet (splitCsv parg)).map .jstr))))
        ("metadata", metadataJson now (actorOf cmd "manual_halt_pairs")
          [("halted_pairs", joinWith "," (pySortedSet (splitCsv parg)))]) := by
    unfold setHaltedPairs hsetStore dictUpd
    simp only [List.foldl_cons, List.foldl_nil]
  have h_hp : alookup (setHaltedPairs now (splitCsv parg)
      (actorOf cmd "manual_halt_pairs") store) "halted_pairs" =
      some (jdump (.jarr ((pySortedSet (splitCsv parg)).map .jstr))) := by
    rw [hupd, alookup_dictUpd1_ne _ _ _ _ (by decide), alookup_dictUpd1_same]
  have h_lev : levFieldOf (setHaltedPairs now (splitCsv parg)
      (actorOf cmd "manual_halt_pairs") store) = some q := by
    unfold levFieldOf at hlev ⊢
    rw [hupd, alookup_dictUpd1_ne _ _ _ _ (by decide),
      alookup_dictUpd1_ne _ _ _ _ (by decide)]
    exact hlev
  have h_ie : (setHaltedPairs now (splitCsv parg)
      (actorOf cmd "manual_halt_pairs") store).isEmpty = false := by
    rw [hupd]
    exact isEmpty_false_of_ne_nil _ (dictUpd1_ne_nil _ _)
  -- every later read returns the sorted set
  have hget : ∀ now2, getSnapshot now2 (setHaltedPairs now (splitCsv parg)
      (actorOf cmd "manual_halt_pairs") store) =
      .ok (⟨pyFlagTruthy ((alookup (setHaltedPairs now (splitCsv parg)
          (actorOf cmd "manual_halt_pairs") store) "global_halt").getD "false"),
        pySortedSet (splitCsv parg),
        loadsSequence ((alookup (setHaltedPairs now (splitCsv parg)
          (actorOf cmd "manual_halt_pairs") store) "flatten_pairs").getD "[]"),
        q,
        loadsMapping ((alookup (setHaltedPairs now (splitCsv parg)
          (actorOf cmd "manual_halt_pairs") store) "metadata").getD "\x7b\x7d")⟩,
        setHaltedPairs now (splitCsv parg) (actorOf cmd "manual_halt_pairs") store) := by
    intro now2
    unfold getSnapshot
    simp only [h_ie, Bool.false_eq_true, if_false, h_lev, mkOpsFlagSnapshot,
      if_neg hq', h_hp, Option.getD_some, loadsSequence_dump]
  -- the handler's own behaviour
  have hhandler : handleHaltPairs now cmd store =
      .ok (⟨"ok", "Halted pairs updated: " ++ joinWith ", " (splitCsv parg),
        snapshotToDetails
          ⟨pyFlagTruthy ((alookup (setHaltedPairs now (splitCsv parg)
              (actorOf cmd "manual_halt_pairs") store) "global_halt").getD "false"),
            pySortedSet (splitCsv parg),
            loadsSequence ((alookup (setHaltedPairs now (splitCsv parg)
              (actorOf cmd "manual_halt_pairs") store) "flatten_pairs").getD "[]"),
            q,
            loadsMapping ((alookup (setHaltedPairs now (splitCsv parg)
              (actorOf cmd "manual_halt_pairs") store) "metadata").getD "\x7b\x7d")⟩⟩,
        setHaltedPairs now (splitCsv parg) (actorOf cmd "manual_halt_pairs") store) := by
    unfold handleHaltPairs
    simp only [harg, Option.getD_some, hpe, Bool.false_eq_true, if_false, hget now]
  -- the full executed command
  have hhf : handlerFor "halt_pairs" = some handleHaltPairs := rfl
  have hexec : opsExecute cfg now store cmd =
      .ok (⟨"ok", "Halted pairs updated: " ++ joinWith ", " (splitCsv parg),
        snapshotToDetails
          ⟨pyFlagTruthy ((alookup (setHaltedPairs now (splitCsv parg)
              (actorOf cmd "manual_halt_pairs") store) "global_halt").getD "false"),
            pySortedSet (splitCsv parg),
            loadsSequence ((alookup (setHaltedPairs now (splitCsv parg)
              (actorOf cmd "manual_halt_pairs") store) "flatten_pairs").getD "[]"),
            q,
            loadsMapping ((alookup (setHaltedPairs now (splitCsv parg)
              (actorOf cmd "manual_halt_pairs") store) "metadata").getD "\x7b\x7d")⟩⟩,
        setHaltedPairs now (splitCsv parg) (actorOf cmd "manual_halt_pairs") store,
        .audit ("ops." ++ pyLower cmd.command)
          (auditPayloadOf cmd
            ⟨"ok", "Halted pairs updated: " ++ joinWith ", " (splitCsv parg),
              snapshotToDetails
                ⟨pyFlagTruthy ((alookup (setHaltedPairs now (splitCsv parg)
                    (actorOf cmd "manual_halt_pairs") store) "global_halt").getD "false"),
                  pySortedSet (splitCsv parg),
                  loadsSequence ((alookup (setHaltedPairs now (splitCsv parg)
                    (actorOf cmd "manual_halt_pairs") store) "flatten_pairs").getD "[]"),
                  q,
                  loadsMapping ((alookup (setHaltedPairs now (splitCsv parg)
                    (actorOf cmd "manual_halt_pairs") store) "metadata").getD "\x7b\x7d")⟩⟩) ::
          publishEffsOf cfg cmd
            ⟨"ok", "Halted pairs updated: " ++ joinWith ", " (splitCsv parg),
              snapshotToDetails
                ⟨pyFlagTruthy ((alookup (setHaltedPairs now (splitCsv parg)
                    (actorOf cmd "manual_halt_pairs") store) "global_halt").getD "false"),
                  pySortedSet (splitCsv parg),
                  loadsSequence ((alookup (setHaltedPairs now (splitCsv parg)
                    (actorOf cmd "manual_halt_pairs") store) "flatten_pairs").getD "[]"),
                  q,
                  loadsMapping ((alookup (setHaltedPairs now (splitCsv parg)
                    (actorOf cmd "manual_halt_pairs") store) "metadata").getD "\x7b\x7d")⟩⟩ ++
            notifyEffsOf cfg (pyLower cmd.command) cmd
              ⟨"ok", "Halted pairs updated: " ++ joinWith ", " (splitCsv parg),
                snapshotToDetails
                  ⟨pyFlagTruthy ((alookup (setHaltedPairs now (splitCsv parg)
                      (actorOf cmd "manual_halt_pairs") store) "global_halt").getD "false"),
                    pySortedSet (splitCsv parg),
                    loadsSequence ((alookup (setHaltedPairs now (splitCsv parg)
                      (actorOf cmd "manual_halt_pairs") store) "flatten_pairs").getD "[]"),
                    q,
                    loadsMapping ((alookup (setHaltedPairs now (splitCsv parg)
                      (actorOf cmd "manual_halt_pairs") store) "metadata").getD "\x7b\x7d")⟩⟩) := by
    simp only [opsExecute, hname, hhf, hhandler]
  have hdet2 : alookup (snapshotToDetails
      ⟨pyFlagTruthy ((alookup (setHaltedPairs now (splitCsv parg)
          (actorOf cmd "manual_halt_pairs") store) "global_halt").getD "false"),
        pySortedSet (splitCsv parg),
        loadsSequence ((alookup (setHaltedPairs now (splitCsv parg)
          (actorOf cmd "manual_halt_pairs") store) "flatten_pairs").getD "[]"),
        q,
        loadsMapping ((alookup (setHaltedPairs now (splitCsv parg)
          (actorOf cmd "manual_halt_pairs") store) "metadata").getD "\x7b\x7d")⟩) "halted_pairs" =
      some (joinWith "," (pySortedSet (splitCsv parg))) := by
    rw [alookup_snapshotToDetails_halted]
  exact ⟨_, _, _, hexec, rfl, hdet2, fun now2 => ⟨_, _, hget now2, rfl⟩⟩

theorem halt_pairs_round_trip_witness :
    (pyLower "halt_pairs" = "halt_pairs" ∧
      alookup [("pairs", "EURUSD, USDJPY")] "pairs" = some "EURUSD, USDJPY" ∧
      splitCsv "EURUSD, USDJPY" ≠ [] ∧
      levFieldOf [("global_halt", "0")] = some 1 ∧ (0 : ℚ) < 1) ∧
    (∃ resp store' effs,
      opsExecute ⟨none, false⟩ "t" [("global_halt", "0")]
          ⟨"halt_pairs", [("pairs", "EURUSD, USDJPY")], []⟩ = .ok (resp, store', effs) ∧
      resp.status = "ok" ∧
      alookup resp.details "halted_pairs" =
        some (joinWith "," (pySortedSet (splitCsv "EURUSD, USDJPY"))) ∧
      ∀ now2, ∃ snap st2, getSnapshot now2 store' = .ok (snap, st2) ∧
        snap.halted_pairs = pySortedSet (splitCsv "EURUSD, USDJPY")) :=
  ⟨⟨by decide, by decide, by decide, by decide, by decide⟩,
    halt_pairs_round_trip ⟨none, false⟩ "t" [("global_halt", "0")]
      ⟨"halt_pairs", [("pairs", "EURUSD, USDJPY")], []⟩ "EURUSD, USDJPY" 1
      (by decide) (by decide) (by decide) (by decide) (by decide)⟩

theorem getSnapshot_empty (now : String) :
    getSnapshot now [] =
      .ok (⟨false, [], [], 1, defaultMetadata now "initialized"⟩,
        storeSnapshot now ⟨false, [], [], 1, defaultMetadata now "initialized"⟩
          "initialize" []) := rfl

theorem getSnapshot_now_indep (now1 now2 : String) (store : Store)
    (hie : store.isEmpty = false) :
    getSnapshot now2 store = getSnapshot now1 store := by
  unfold getSnapshot
  simp only [hie, Bool.false_eq_true, if_false]

theorem getSnapshot_store_fixed (now : String) (store : Store)
    (snap : OpsFlagSnapshot) (store1 : Store) (hie : store.isEmpty = false)
    (h : getSnapshot now store = .ok (snap, store1)) : store1 = store := by
  unfold getSnapshot at h
  simp only [hie, Bool.false_eq_true, if_false] at h
  split at h
  · exact Except.noConfusion h
  · split at h
    · exact Except.noConfusion h
    · simp only [Except.ok.injEq, Prod.mk.injEq] at h
      exact h.2.symm

theorem getSnapshot_after_init (now1 now2 : String) :
    getSnapshot now2 (storeSnapshot now1
        ⟨false, [], [], 1, defaultMetadata now1 "initialized"⟩ "initialize" []) =
      .ok (⟨false, [], [], 1, defaultMetadata now1 "initialized"⟩,
        storeSnapshot now1 ⟨false, [], [], 1, defaultMetadata now1 "initialized"⟩
          "initialize" []) := by
  have hmd : loadsMapping (metadataJson now1 "initialize"
      (defaultMetadata now1 "initialized")) = defaultMetadata now1 "initialized" := by
    unfold metadataJson
    rw [show dictUpd (defaultMetadata now1 "initialize")
        (defaultMetadata now1 "initialized") = defaultMetadata now1 "initialized"
      from rfl]
    exact loadsMapping_dump (defaultMetadata now1 "initialized")
      (by rw [show (defaultMetadata now1 "initialized").map Prod.fst =
          ["updated_at", "reason", "source"] from rfl]; decide)
  have hlev : levFieldOf (storeSnapshot now1
      ⟨false, [], [], 1, defaultMetadata now1 "initialized"⟩ "initialize" []) =
      some 1 := by
    unfold levFieldOf
    rw [show alookup (storeSnapshot now1
        ⟨false, [], [], 1, defaultMetadata now1 "initialized"⟩ "initialize" [])
        "leverage_scale" = some (formatFixed 6 1) from rfl]
    exact (by decide : parsePyFloat (formatFixed 6 1) = some 1)
  have hgh : pyFlagTruthy ((alookup (storeSnapshot now1
      ⟨false, [], [], 1, defaultMetadata now1 "initialized"⟩ "initialize" [])
      "global_halt").getD "false") = false := by
    rw [show alookup (storeSnapshot now1
        ⟨false, [], [], 1, defaultMetadata now1 "initialized"⟩ "initialize" [])
        "global_halt" = some "0" from rfl]
    exact (by decide : pyFlagTruthy ((some "0").getD "false") = false)
  have hhp : loadsSequence ((alookup (storeSnapshot now1
      ⟨false, [], [], 1, defaultMetadata now1 "initialized"⟩ "initialize" [])
      "halted_pairs").getD "[]") = [] := by
    rw [show alookup (storeSnapshot now1
        ⟨false, [], [], 1, defaultMetadata now1 "initialized"⟩ "initialize" [])
        "halted_pairs" = some (jdump (.jarr [])) from rfl]
    exact (by decide : loadsSequence ((some (jdump (.jarr []))).getD "[]") = [])
  have hfp : loadsSequence ((alookup (storeSnapshot now1
      ⟨false, [], [], 1, defaultMetadata now1 "initialized"⟩ "initialize" [])
      "flatten_pairs").getD "[]") = [] := by
    rw [show alookup (storeSnapshot now1
        ⟨false, [], [], 1, defaultMetadata now1 "initialized"⟩ "initialize" [])
        "flatten_pairs" = some (jdump (.jarr [])) from rfl]
    exact (by decide : loadsSequence ((some (jdump (.jarr []))).getD "[]") = [])
  have hmd2 : loadsMapping ((alookup (storeSnapshot now1
      ⟨false, [], [], 1, defaultMetadata now1 "initialized"⟩ "initialize" [])
      "metadata").getD "\x7b\x7d") = defaultMetadata now1 "initialized" := by
    rw [show alookup (storeSnapshot now1
        ⟨false, [], [], 1, defaultMetadata now1 "initialized"⟩ "initialize" [])
        "metadata" = some (metadataJson now1 "initialize"
          (defaultMetadata now1 "initialized")) from rfl]
    exact hmd
  unfold getSnapshot
  simp only [show (storeSnapshot now1
      ⟨false, [], [], 1, defaultMetadata now1 "initialized"⟩ "initialize"
      []).isEmpty = false from rfl, Bool.false_eq_true, if_false, hlev]
  unfold mkOpsFlagSnapshot
  rw [if_neg (by decide : ¬(1 : ℚ) ≤ 0)]
  simp only [hgh, hhp, hfp, hmd2]

/-- C9: `get_snapshot` is idempotent: whatever snapshot and resulting
store one call produces, a second call on that store (at any later
timestamp, with no intervening writes) returns the identical snapshot in
every field and leaves the store unchanged — including the empty-store
case where the first call persists the defaults and the second
deserialises the formatted leverage and JSON-encoded lists and metadata
back to equal values. -/
theorem get_snapshot_idempotent (now1 now2 : String) (store : Store)
    (snap : OpsFlagSnapshot) (store1 : Store)
    (h : getSnapshot now1 store = .ok (snap, store1)) :
    getSnapshot now2 store1 = .ok (snap, store1) := by
  cases hie : store.isEmpty with
  | true =>
      have hst : store = [] := by
        cases store with
        | nil => rfl
        | cons a t => simp [List.isEmpty] at hie
      subst hst
      rw [getSnapshot_empty now1] at h
      simp only [Except.ok.injEq, Prod.mk.injEq] at h
      obtain ⟨h1, h2⟩ := h
      subst h1
      subst h2
      exact getSnapshot_after_init now1 now2
  | false =>
      have hse : store1 = store := getSnapshot_store_fixed now1 store snap store1 hie h
      rw [hse] at h ⊢
      rw [getSnapshot_now_indep now1 now2 store hie]
      exact h

theorem get_snapshot_idempotent_witness :
    getSnapshot "t1" [] =
      .ok (⟨false, [], [], 1, defaultMetadata "t1" "initialized"⟩,
        storeSnapshot "t1" ⟨false, [], [], 1, defaultMetadata "t1" "initialized"⟩
          "initialize" []) ∧
    getSnapshot "t2" (storeSnapshot "t1"
        ⟨false, [], [], 1, defaultMetadata "t1" "initialized"⟩ "initialize" []) =
      .ok (⟨false, [], [], 1, defaultMetadata "t1" "initialized"⟩,
        storeSnapshot "t1" ⟨false, [], [], 1, defaultMetadata "t1" "initialized"⟩
          "initialize" []) :=
  ⟨rfl, get_snapshot_idempotent "t1" "t2" [] _ _ rfl⟩

/-- C4 counterexample: a stored `leverage_scale` value that does not
parse as a float makes `get_snapshot` raise (the `float()` conversion has
no fallback) instead of defaulting to `1.0`, so `get_snapshot` does not
tolerate every malformed sub-field. -/
theorem get_snapshot_bad_leverage_raises :
    getSnapshot "t" [("leverage_scale", "abc")] =
      .error "could not convert string to float" := by decide

/-- C4 (amended): an empty store lazily initialises and persists the
documented defaults, and on a non-empty store `global_halt`, the pair
lists and the metadata all fall back to their documented defaults
whatever their stored values are — but `leverage_scale` does not: the
call succeeds exactly when the stored value (or its `1.0` default when
missing) parses to a positive float `q`, and then returns the
fallback-deserialised snapshot with that `q`. -/
theorem get_snapshot_fallbacks (now : String) (store : Store) (q : ℚ)
    (hie : store.isEmpty = false) (hlev : levFieldOf store = some q)
    (hq : 0 < q) :
    getSnapshot now [] =
      .ok (⟨false, [], [], 1, defaultMetadata now "initialized"⟩,
        storeSnapshot now ⟨false, [], [], 1, defaultMetadata now "initialized"⟩
          "initialize" []) ∧
    getSnapshot now store = .ok
      (⟨pyFlagTruthy ((alookup store "global_halt").getD "false"),
        loadsSequence ((alookup store "halted_pairs").getD "[]"),
        loadsSequence ((alookup store "flatten_pairs").getD "[]"), q,
        loadsMapping ((alookup store "metadata").getD "\x7b\x7d")⟩, store) := by
  refine ⟨getSnapshot_empty now, ?_⟩
  unfold getSnapshot
  simp only [hie, Bool.false_eq_true, if_false, hlev, mkOpsFlagSnapshot,
    if_neg (not_le.mpr hq)]

theorem get_snapshot_fallbacks_witness :
    (([("global_halt", "weird"), ("halted_pairs", "oops"), ("metadata", "42")] :
        Store).isEmpty = false ∧
      levFieldOf [("global_halt", "weird"), ("halted_pairs", "oops"),
        ("metadata", "42")] = some 1 ∧ (0 : ℚ) < 1) ∧
    (getSnapshot "t" [] =
      .ok (⟨false, [], [], 1, defaultMetadata "t" "initialized"⟩,
        storeSnapshot "t" ⟨false, [], [], 1, defaultMetadata "t" "initialized"⟩
          "initialize" []) ∧
    getSnapshot "t" [("global_halt", "weird"), ("halted_pairs", "oops"),
        ("metadata", "42")] = .ok
      (⟨pyFlagTruthy ((alookup [("global_halt", "weird"), ("halted_pairs", "oops"),
          ("metadata", "42")] "global_halt").getD "false"),
        loadsSequence ((alookup [("global_halt", "weird"), ("halted_pairs", "oops"),
          ("metadata", "42")] "halted_pairs").getD "[]"),
        loadsSequence ((alookup [("global_halt", "weird"), ("halted_pairs", "oops"),
          ("metadata", "42")] "flatten_pairs").getD "[]"), 1,
        loadsMapping ((alookup [("global_halt", "weird"), ("halted_pairs", "oops"),
          ("metadata", "42")] "metadata").getD "\x7b\x7d")⟩,
        [("global_halt", "weird"), ("halted_pairs", "oops"), ("metadata", "42")])) :=
  ⟨⟨by decide, by decide, by decide⟩,
    get_snapshot_fallbacks "t"
      [("global_halt", "weird"), ("halted_pairs", "oops"), ("metadata", "42")] 1
      (by decide) (by decide) (by decide)⟩
